import Mathlib

/-!
Verification development for the AltHistoryAgent event-to-consequence pipeline:
a shallow embedding of `summarizers/ramification_executor.py`,
`summarizers/event_engine.py` and the step sequencing of `time_engine.py`,
followed by theorems about the embedded operations.

Modelling conventions:
* JSON/Python data is embedded as the inductive type `Value`.  Python numbers
  (`int` and `float` together) are modelled as exact fractions (`PyNum`,
  kept unnormalized so every arithmetic step is kernel-computable); no
  property proved below depends on floating-point rounding, only on numeric
  comparisons and on the divide-by-zero branch, which the source treats
  symbolically.
* Python `bool` is a separate constructor, but the numeric coercions Python
  applies to `bool` (`isinstance(True, int)`, `True == 1`) are reproduced in
  `isNumericValue`, `toRat` and `pyEq`.
* Dictionaries are association lists in insertion order, mirroring CPython
  dict semantics (assignment overwrites in place, new keys append).
* The executor's bookkeeping list `global_state["ramifications"]` is held as a
  typed list next to the rest of the document.  Target paths are resolved
  against the document only; a `targetPath` that addresses the bookkeeping
  list itself would, in Python, alias the iteration state through the heap,
  which a functional embedding does not reproduce.  All paths produced by the
  pipeline target `nations.*` / `globalEconomy.*` style locations.
* `executionTime` and `status` are typed as optional strings: the pipeline
  only ever writes `strftime` strings there.  (A non-string `executionTime`
  would make `datetime.fromisoformat` raise `TypeError`, aborting the whole
  call; that state is outside the modelled space.)
-/

/-- An exact fraction with positive denominator, kept unnormalized:
numeric comparisons cross-multiply, so no gcd is ever needed and every
operation reduces in the kernel. -/
structure PyNum where
  num : Int
  den : Int
deriving DecidableEq, Repr

/-- Embed an integer literal. -/
def PyNum.ofInt (n : Int) : PyNum := ⟨n, 1⟩

/-- Build a fraction, moving the denominator sign into the numerator. -/
def PyNum.mkSigned (n d : Int) : PyNum := if d < 0 then ⟨-n, -d⟩ else ⟨n, d⟩

/-- Addition. -/
def PyNum.add (a b : PyNum) : PyNum := ⟨a.num * b.den + b.num * a.den, a.den * b.den⟩

/-- Subtraction. -/
def PyNum.sub (a b : PyNum) : PyNum := ⟨a.num * b.den - b.num * a.den, a.den * b.den⟩

/-- Multiplication. -/
def PyNum.mul (a b : PyNum) : PyNum := ⟨a.num * b.num, a.den * b.den⟩

/-- Division (callers establish the divisor is non-zero). -/
def PyNum.div (a b : PyNum) : PyNum := PyNum.mkSigned (a.num * b.den) (a.den * b.num)

/-- Numeric equality by cross-multiplication. -/
def PyNum.beq (a b : PyNum) : Bool := a.num * b.den == b.num * a.den

/-- Numeric strict order by cross-multiplication (denominators positive). -/
def PyNum.blt (a b : PyNum) : Bool := a.num * b.den < b.num * a.den

/-- A Python/JSON value: `None`, booleans, numbers (`int`/`float` as exact
fractions), strings, lists and dicts (association lists in insertion
order). -/
inductive Value where
  | null : Value
  | bool : Bool → Value
  | num : PyNum → Value
  | str : String → Value
  | list : List Value → Value
  | dict : List (String × Value) → Value

/-- Dict lookup: first binding of the key (CPython dicts are duplicate-free). -/
def dictLookup (k : String) : List (String × Value) → Option Value
  | [] => none
  | (k2, v) :: rest => if k2 = k then some v else dictLookup k rest

/-- Dict assignment `d[k] = v`: overwrite the first binding in place,
append if the key is absent (CPython insertion-order semantics). -/
def dictSet (k : String) (v : Value) : List (String × Value) → List (String × Value)
  | [] => [(k, v)]
  | (k2, w) :: rest => if k2 = k then (k2, v) :: rest else (k2, w) :: dictSet k v rest

/-- `item.update(new)` on a dict: assign every binding of `new` in order. -/
def dictUpdate (base add : List (String × Value)) : List (String × Value) :=
  add.foldl (fun acc kv => dictSet kv.1 kv.2 acc) base

/-- Python truthiness of a value (`None`, `False`, `0`, `""`, `[]`, the empty
dict are falsy). -/
def pyTruthy : Value → Bool
  | .null => false
  | .bool b => b
  | .num q => !(q.beq (PyNum.ofInt 0))
  | .str s => s != ""
  | .list xs => !xs.isEmpty
  | .dict kvs => !kvs.isEmpty

/-- `isinstance(v, (int, float))` — Python counts `bool` as `int`. -/
def isNumericValue : Value → Bool
  | .num _ => true
  | .bool _ => true
  | _ => false

/-- Numeric reading of a value, coercing `bool` the way Python arithmetic does. -/
def toNum : Value → PyNum
  | .num q => q
  | .bool b => PyNum.ofInt (if b then 1 else 0)
  | _ => PyNum.ofInt 0

mutual

/-- Python `==` on embedded values: numeric values compare by value (with the
`bool`/number coercion), strings by content, lists pointwise, dicts as
key-value maps irrespective of insertion order — modelled, for the
duplicate-free dicts CPython produces, as every-key-matches plus equal
size. -/
def pyEq : Value → Value → Bool
  | .null, .null => true
  | .bool a, .bool b => a == b
  | .bool a, .num b => (PyNum.ofInt (if a then 1 else 0)).beq b
  | .num a, .bool b => a.beq (PyNum.ofInt (if b then 1 else 0))
  | .num a, .num b => a.beq b
  | .str a, .str b => a == b
  | .list a, .list b => pyEqList a b
  | .dict a, .dict b => pyEqDict a b && a.length == b.length
  | _, _ => false
termination_by structural a => a

/-- Pointwise list equality under `pyEq`. -/
def pyEqList : List Value → List Value → Bool
  | [], [] => true
  | x :: xs, y :: ys => pyEq x y && pyEqList xs ys
  | _, _ => false
termination_by structural a => a

/-- Every binding of the first dict is matched by the second dict's binding
for the same key. -/
def pyEqDict : List (String × Value) → List (String × Value) → Bool
  | [], _ => true
  | (k, v) :: rest, b =>
    (match dictLookup k b with
     | some w => pyEq v w
     | none => false) && pyEqDict rest b
termination_by structural a => a

end

/-- Python `str.isdigit` for the ASCII digit strings used as list indices. -/
def isDigitStr (s : String) : Bool :=
  !s.toList.isEmpty && s.toList.all Char.isDigit

/-- Decimal reading of a digit string. -/
def digitsToNat (cs : List Char) : Nat :=
  cs.foldl (fun acc c => acc * 10 + (c.toNat - 48)) 0

/-- `int(s)` on a digit string. -/
def toIdx (s : String) : Nat :=
  digitsToNat s.toList

/-- Split a character list on a separator character (the semantics of
`str.split` with a one-character separator; an empty string yields one empty
segment, as in Python). -/
def splitOnCharAux (sep : Char) (acc : List Char) : List Char → List (List Char)
  | [] => [acc.reverse]
  | c :: rest =>
    if c == sep then acc.reverse :: splitOnCharAux sep [] rest
    else splitOnCharAux sep (c :: acc) rest

/-- `path.split(".")`. -/
def splitPath (path : String) : List String :=
  (splitOnCharAux (Char.ofNat 46) [] path.toList).map String.mk

/-!
### A model of the `datetime` values used by the pipeline

`datetime.fromisoformat` / `strptime` / `strftime` / `timedelta(days=n)` are
Python standard-library collaborators; they are modelled here for the formats
the pipeline actually uses: `YYYY-MM-DD` and `YYYY-MM-DDTHH:MM:SS`.
-/

/-- A parsed datetime; ordering is lexicographic on the fields. -/
structure PyDateTime where
  year : Nat
  month : Nat
  day : Nat
  hour : Nat
  minute : Nat
  second : Nat
deriving DecidableEq, Repr

/-- Lexicographic `<=` on datetimes, as `datetime.__le__`. -/
def PyDateTime.ble (a b : PyDateTime) : Bool :=
  if a.year ≠ b.year then a.year < b.year
  else if a.month ≠ b.month then a.month < b.month
  else if a.day ≠ b.day then a.day < b.day
  else if a.hour ≠ b.hour then a.hour < b.hour
  else if a.minute ≠ b.minute then a.minute < b.minute
  else a.second ≤ b.second

/-- Gregorian leap-year rule. -/
def isLeapYear (y : Nat) : Bool :=
  (y % 4 = 0 && y % 100 ≠ 0) || y % 400 = 0

/-- Days in a month. -/
def daysInMonth (y m : Nat) : Nat :=
  if m = 2 then (if isLeapYear y then 29 else 28)
  else if m = 4 || m = 6 || m = 9 || m = 11 then 30
  else 31

/-- Parse a fixed-width decimal field made of digits only. -/
def parseNatField (cs : List Char) : Option Nat :=
  if !cs.isEmpty && cs.all Char.isDigit then some (digitsToNat cs) else none

/-- `datetime.fromisoformat` restricted to the two layouts the pipeline emits:
`YYYY-MM-DD` and `YYYY-MM-DDTHH:MM:SS` (field ranges validated). -/
def fromIsoformat? (s : String) : Option PyDateTime := do
  let cs := s.toList
  let datePart := cs.take 10
  let rest := cs.drop 10
  match splitOnCharAux (Char.ofNat 45) [] datePart with
  | [ys, ms, ds] =>
    if ys.length = 4 && ms.length = 2 && ds.length = 2 then do
      let y ← parseNatField ys
      let m ← parseNatField ms
      let d ← parseNatField ds
      if 1 ≤ m && m ≤ 12 && 1 ≤ d && d ≤ daysInMonth y m then
        match rest with
        | [] => pure ⟨y, m, d, 0, 0, 0⟩
        | tc :: timePart =>
          if tc == 'T' then
            match splitOnCharAux (Char.ofNat 58) [] timePart with
            | [hs, mins, secs] =>
              if hs.length = 2 && mins.length = 2 && secs.length = 2 then do
                let h ← parseNatField hs
                let mi ← parseNatField mins
                let se ← parseNatField secs
                if h < 24 && mi < 60 && se < 60 then
                  pure ⟨y, m, d, h, mi, se⟩
                else none
              else none
            | _ => none
          else none
      else none
    else none
  | _ => none

/-- One calendar day forward. -/
def PyDateTime.nextDay (t : PyDateTime) : PyDateTime :=
  if t.day < daysInMonth t.year t.month then { t with day := t.day + 1 }
  else if t.month < 12 then { t with month := t.month + 1, day := 1 }
  else { t with year := t.year + 1, month := 1, day := 1 }

/-- `t + timedelta(days := n)`. -/
def PyDateTime.addDays (t : PyDateTime) : Nat → PyDateTime
  | 0 => t
  | n + 1 => (t.nextDay).addDays n

/-- Decimal digits of a number, via bounded recursion (kernel-computable). -/
def natDigits (fuel n : Nat) : List Char :=
  match fuel with
  | 0 => []
  | f + 1 =>
    if n < 10 then [Char.ofNat (48 + n)]
    else natDigits f (n / 10) ++ [Char.ofNat (48 + n % 10)]

/-- Decimal rendering of a number. -/
def natToString (n : Nat) : String :=
  String.mk (natDigits 20 n)

/-- Zero-pad a decimal rendering to the given width. -/
def padNum (width n : Nat) : String :=
  let s := natToString n
  if s.length < width then String.mk (List.replicate (width - s.length) '0') ++ s else s

/-- `strftime("%Y-%m-%d")`. -/
def PyDateTime.fmtDate (t : PyDateTime) : String :=
  padNum 4 t.year ++ "-" ++ padNum 2 t.month ++ "-" ++ padNum 2 t.day

/-- `strftime("%Y-%m-%dT%H:%M:%S")`. -/
def PyDateTime.fmtIso (t : PyDateTime) : String :=
  t.fmtDate ++ "T" ++ padNum 2 t.hour ++ ":" ++ padNum 2 t.minute ++ ":" ++ padNum 2 t.second

/-!
### The Mutation Executor (`summarizers/ramification_executor.py`)
-/

/-- `_get_nested_value` (lines 29-67): walk all but the last path segment
(dict key present, or list with a digit index in bounds), then read the final
segment, returning the value together with its direct parent container;
any failure (including the caught traversal exceptions) yields `none`. -/
def getNestedValue : Value → List String → Option (Value × Value)
  | cur, [last] =>
    match cur with
    | .dict kvs =>
      match dictLookup last kvs with
      | some v => some (v, .dict kvs)
      | none => none
    | .list xs =>
      if isDigitStr last then
        match xs[toIdx last]? with
        | some v => some (v, .list xs)
        | none => none
      else none
    | _ => none
  | cur, key :: next :: restKeys =>
    match cur with
    | .dict kvs =>
      match dictLookup key kvs with
      | some child => getNestedValue child (next :: restKeys)
      | none => none
    | .list xs =>
      if isDigitStr key then
        match xs[toIdx key]? with
        | some child => getNestedValue child (next :: restKeys)
        | none => none
      else none
    | _ => none
  | _, [] => none

/-- Rewrite the node reached by walking `keys` with the same traversal rules
as `_get_nested_value`; this expresses the executor's writes through the
parent alias (`parent[last_key] = ...`, `del parent[idx]`, `.append`) as a
path-based update.  An unreachable path leaves the document unchanged
(such writes cannot occur: the executor resolves the path first). -/
def rewriteAt (doc : Value) (keys : List String) (g : Value → Value) : Value :=
  match keys with
  | [] => g doc
  | key :: rest =>
    match doc with
    | .dict kvs =>
      match dictLookup key kvs with
      | some child => .dict (dictSet key (rewriteAt child rest g) kvs)
      | none => .dict kvs
    | .list xs =>
      if isDigitStr key then
        match xs[toIdx key]? with
        | some child => .list (xs.set (toIdx key) (rewriteAt child rest g))
        | none => .list xs
      else .list xs
    | v => v

/-- `_set_nested_value` (lines 69-115).  Returns the success flag together
with the document as mutated so far: in the source, intermediate containers
created before a later failure persist in the state (claim C10's subject).
A missing dict key is filled with `{}` when the following segment is not a
digit string, else with `[]` (lines 80-85). -/
def setNestedValue (doc : Value) (keys : List String) (value : Value) : Bool × Value :=
  match keys with
  | [] => (false, doc)
  | [last] =>
    match doc with
    | .dict kvs => (true, .dict (dictSet last value kvs))
    | .list xs =>
      if isDigitStr last then
        let idx := toIdx last
        if idx < xs.length then (true, .list (xs.set idx value))
        else if idx = xs.length then (true, .list (xs ++ [value]))
        else (false, .list xs)
      else (false, .list xs)
    | v => (false, v)
  | key :: next :: rest =>
    match doc with
    | .dict kvs =>
      match dictLookup key kvs with
      | some child =>
        let r := setNestedValue child (next :: rest) value
        (r.1, .dict (dictSet key r.2 kvs))
      | none =>
        let child0 : Value := if !(isDigitStr next) then .dict [] else .list []
        let r := setNestedValue child0 (next :: rest) value
        (r.1, .dict (dictSet key r.2 kvs))
    | .list xs =>
      if isDigitStr key then
        let idx := toIdx key
        match xs[idx]? with
        | some child =>
          let r := setNestedValue child (next :: rest) value
          (r.1, .list (xs.set idx r.2))
        | none => (false, .list xs)
      else (false, .list xs)
    | v => (false, v)

/-- One element of the `remove_item` scan (lines 210-224): a truthy
identifier matches a dict element through its first key, or any element equal
to the identifier itself; with no identifier, elements equal to `value`
match. -/
def removeItemMatches (identifier value item : Value) : Bool :=
  if pyTruthy identifier then
    match identifier, item with
    | .dict ((idKey, idVal) :: _), .dict ikvs =>
      (match dictLookup idKey ikvs with
       | some w => pyEq w idVal
       | none => pyEq .null idVal)
    | _, _ => pyEq item identifier
  else pyEq item value

/-- The `remove_item` value/identifier scan (lines 208-230): whether anything
matched, and the retained elements — every matching element is dropped. -/
def removeMatchingScan (identifier value : Value) : List Value → Bool × List Value
  | [] => (false, [])
  | item :: rest =>
    let r := removeMatchingScan identifier value rest
    if removeItemMatches identifier value item then (true, r.2)
    else (r.1, item :: r.2)

/-- The `update_item` first-match search (lines 247-259): merge a dict value
into the first dict element whose `idKey` entry equals `idVal`, or replace
that element when the new value is not a dict; `none` when nothing matches. -/
def updateItemScan (idKey : String) (idVal newValue : Value) : List Value → Option (List Value)
  | [] => none
  | item :: rest =>
    match item with
    | .dict ikvs =>
      if (match dictLookup idKey ikvs with
          | some w => pyEq w idVal
          | none => pyEq .null idVal) then
        match newValue with
        | .dict nkvs => some (Value.dict (dictUpdate ikvs nkvs) :: rest)
        | nv => some (nv :: rest)
      else (updateItemScan idKey idVal newValue rest).map (fun l => item :: l)
    | _ => (updateItemScan idKey idVal newValue rest).map (fun l => item :: l)

/-- Rendering of a value into the error-message interpolations; which message
family is chosen matters below, the interpolated text does not. -/
def pyRepr : Value → String
  | .null => "None"
  | .bool b => if b then "True" else "False"
  | .num q => toString q.num ++ "/" ++ toString q.den
  | .str s => s
  | .list _ => "list"
  | .dict _ => "dict"

/-- The body of the per-ramification `try` block (lines 164-269): resolve the
path, dispatch on the operation, and return (success flag, error message,
document after the attempt).  Message texts follow the source minus the
single-quote characters around interpolated values. -/
def applyOperation (doc : Value) (targetPath : String) (operation : Value)
    (value : Value) (valueIdentifier : Value) : Bool × String × Value :=
  let keys := splitPath targetPath
  let lastKey := keys.getLast!
  match operation, getNestedValue doc keys with
  | .str "set", _ =>
    let r := setNestedValue doc keys value
    if r.1 then (true, "", r.2)
    else (false, "Failed to set value at path " ++ targetPath ++ ".", r.2)
  | _, none =>
    -- line 168: raised `ValueError(f"Invalid targetPath: ...")`, caught at 267
    (false, "Exception during execution: Invalid targetPath: " ++ targetPath, doc)
  | .str "add", some (cur, _) =>
    if isNumericValue cur && isNumericValue value then
      (true, "", rewriteAt doc keys (fun _ => .num ((toNum cur).add (toNum value))))
    else
      match cur with
      | .list _ =>
        (true, "", rewriteAt doc keys (fun c =>
          match c with
          | .list xs => .list (xs ++ [value])
          | v => v))
      | _ => (false, "Cannot add: type mismatch or invalid path " ++ targetPath ++
              " (current: " ++ pyRepr cur ++ ", value: " ++ pyRepr value ++ ").", doc)
  | .str "subtract", some (cur, _) =>
    if isNumericValue cur && isNumericValue value then
      (true, "", rewriteAt doc keys (fun _ => .num ((toNum cur).sub (toNum value))))
    else (false, "Cannot subtract: type mismatch or invalid path " ++ targetPath ++ ".", doc)
  | .str "multiply", some (cur, _) =>
    if isNumericValue cur && isNumericValue value then
      (true, "", rewriteAt doc keys (fun _ => .num ((toNum cur).mul (toNum value))))
    else (false, "Cannot multiply: type mismatch or invalid path " ++ targetPath ++ ".", doc)
  | .str "divide", some (cur, _) =>
    if isNumericValue cur && isNumericValue value && !(pyEq value (.num (PyNum.ofInt 0))) then
      (true, "", rewriteAt doc keys (fun _ => .num ((toNum cur).div (toNum value))))
    else if pyEq value (.num (PyNum.ofInt 0)) then (false, "Cannot divide by zero.", doc)
    else (false, "Cannot divide: type mismatch or invalid path " ++ targetPath ++ ".", doc)
  | .str "remove_item", some (cur, par) =>
    match par, isDigitStr lastKey with
    | .list pxs, true =>
      let idx := toIdx lastKey
      if idx < pxs.length then
        (true, "", rewriteAt doc keys.dropLast (fun c =>
          match c with
          | .list xs => .list (xs.eraseIdx idx)
          | v => v))
      else (false, "Index " ++ natToString idx ++ " out of bounds for remove_item.", doc)
    | _, _ =>
      match cur with
      | .list xs =>
        let r := removeMatchingScan valueIdentifier value xs
        if r.1 then (true, "", rewriteAt doc keys (fun _ => .list r.2))
        else (false, "Item not found for remove_item using value/identifier.", doc)
      | _ => (false, "Cannot remove_item: target path " ++ targetPath ++ " is not a list or index.", doc)
  | .str "update_item", some (cur, _) =>
    match cur with
    | .list xs =>
      match valueIdentifier with
      | .dict ((idKey, idVal) :: _) =>
        match updateItemScan idKey idVal value xs with
        | some newXs => (true, "", rewriteAt doc keys (fun _ => .list newXs))
        | none => (false, "Item not found for update_item using identifier.", doc)
      | _ => (false, "update_item requires a valueIdentifier.", doc)
    | _ => (false, "Cannot update_item: target path " ++ targetPath ++ " does not point to a list.", doc)
  | op, some _ => (false, "Unsupported operation: " ++ pyRepr op ++ ".", doc)

/-- One record of the `ramifications` collection, with the fields the
executor and the consequence synthesizer touch; the `.get` fields default to
`Value.null` when the source would see a missing key. -/
structure Ramification where
  ramificationId : String := ""
  originEffectId : String := ""
  nationId : Value := .null
  description : Value := .null
  targetPath : Value := .null
  operation : Value := .null
  value : Value := .null
  valueIdentifier : Value := .null
  executionTime : Option String := none
  status : Option String := none
  failureReason : Option String := none

/-- The document together with the executor's bookkeeping collection. -/
structure SimState where
  doc : Value
  ramifications : List Ramification

/-- Write back one ramification record at its index. -/
def setRam (st : SimState) (i : Nat) (r : Ramification) : SimState :=
  { st with ramifications := st.ramifications.set i r }

/-- Processing of the ramification at one index (lines 135-277): bounds
guard, re-check of `pending`, execution-time parse, dueness test, field
checks, then the operation attempt, ending in `executed` or `failed`. -/
def processIndex (now : PyDateTime) (st : SimState) (index : Nat) : SimState :=
  match st.ramifications[index]? with
  | none => st
  | some ram =>
    if ram.status ≠ some "pending" then st
    else
      match ram.executionTime.bind fromIsoformat? with
      | none => setRam st index { ram with
          status := some "failed"
          failureReason := some "Invalid or missing executionTime format." }
      | some et =>
        if et.ble now then
          if !(pyTruthy ram.targetPath) || !(pyTruthy ram.operation) then
            setRam st index { ram with
              status := some "failed"
              failureReason := some "Missing targetPath or operation." }
          else
            match ram.targetPath with
            | .str path =>
              let r := applyOperation st.doc path ram.operation ram.value ram.valueIdentifier
              if r.1 then
                setRam { st with doc := r.2.2 } index { ram with status := some "executed" }
              else
                setRam { st with doc := r.2.2 } index { ram with
                  status := some "failed"
                  failureReason := some r.2.1 }
            | _ =>
              -- a non-string targetPath makes `.split` raise, caught at line 267
              setRam st index { ram with
                status := some "failed"
                failureReason := some "Exception during execution: targetPath is not a string." }
        else st

/-- `execute_pending_ramifications` (lines 117-277): parse the current time
(el invalid format returns with no change), snapshot the indices whose status
is `pending`, and process each in order. -/
def executePendingRamifications (st : SimState) (currentSimTimeStr : String) : SimState :=
  match fromIsoformat? currentSimTimeStr with
  | none => st
  | some now =>
    let idxs := (List.range st.ramifications.length).filter
      (fun i => (st.ramifications[i]?).any (fun r => r.status == some "pending"))
    idxs.foldl (processIndex now) st

/-!
### The Condition Evaluator, Consequence Synthesizer and Step Controller
(`summarizers/event_engine.py`, step sequencing from `time_engine.py`)

`uuid.uuid4()` draws are modelled as a supply `uuidGen : Nat → String`
consumed through a counter, and each `generate_json_object` round trip as an
oracle `AiOracle` consumed through its own counter (the value `none` stands
for a call that exhausted its retries or failed validation).  A function
returning `Option` uses `none` for an exception escaping the modelled code.
-/

/-- The outcome of one `generate_json_object` round trip: a parsed JSON
object (dict), or `none` after the retry budget is exhausted. -/
def AiOracle : Type := Nat → Option (List (String × Value))

/-- The EventEngine's state: the shared document with its ramification
collection, the step-scoped pending-events list, the simulated time, the
uuid and oracle counters, and whether `ramification_schema.json` loaded. -/
structure EngineState where
  gs : SimState
  pendingEvents : List Value
  timeStep : PyDateTime
  uuidCtr : Nat := 0
  aiCtr : Nat := 0
  ramSchemaLoaded : Bool := true

/-- Assignment `global_state[key] = v` (the root is a dict by the `__init__`
type check, event_engine.py lines 195-196). -/
def docSetKey (doc : Value) (k : String) (v : Value) : Value :=
  match doc with
  | .dict kvs => .dict (dictSet k v kvs)
  | w => w

/-- `global_state.get("conflicts", {}).get("activeWars", [])` (lines 349-350)
as the list the `for` loop then walks; `none` when a malformed record would
raise out of `check_conflicts` (a non-dict `conflicts`, or a non-list
`activeWars` whose iteration feeds non-dicts to `war.get`); iterating an
empty dict or empty string runs the loop zero times, hence no exception. -/
def activeWarsOf (doc : Value) : Option (List Value) :=
  match doc with
  | .dict kvs =>
    match dictLookup "conflicts" kvs with
    | none => some []
    | some (.dict ckvs) =>
      match dictLookup "activeWars" ckvs with
      | none => some []
      | some (.list ws) => some ws
      | some (.dict []) => some []
      | some (.str "") => some []
      | some _ => none
    | some _ => none
  | _ => none

/-- Lines 352-355: `war.get("casualties", {}).get("military", 0)` with a
non-numeric value coerced to `0`; `none` when the `casualties` entry is
present but not a dict (its `.get` raises). -/
def milCasualties (wkvs : List (String × Value)) : Option PyNum :=
  match dictLookup "casualties" wkvs with
  | none => some (PyNum.ofInt 0)
  | some (.dict ckvs) =>
    match dictLookup "military" ckvs with
    | none => some (PyNum.ofInt 0)
    | some m => some (if isNumericValue m then toNum m else PyNum.ofInt 0)
  | some _ => none

/-- `war.get("status") == "Ongoing"` (line 357). -/
def warStatusOngoing (wkvs : List (String × Value)) : Bool :=
  pyEq ((dictLookup "status" wkvs).getD .null) (.str "Ongoing")

/-- The escalation predicate of line 357 (casualty reading included, so a
malformed `casualties` record propagates). -/
def warTriggered (wkvs : List (String × Value)) : Option Bool := do
  let mil ← milCasualties wkvs
  pure (warStatusOngoing wkvs && PyNum.blt (PyNum.ofInt 10000) mil)

/-- Line 359: `war.get("belligerents", {})` then `sideA`/`sideB` with `[]`
defaults, concatenated with `+`; `none` for the raising shapes. -/
def sideLists (wkvs : List (String × Value)) : Option (List Value × List Value) := do
  let bkvs ← match dictLookup "belligerents" wkvs with
    | none => some []
    | some (.dict b) => some b
    | some _ => none
  let sa ← match dictLookup "sideA" bkvs with
    | none => some []
    | some (.list l) => some l
    | some _ => none
  let sb ← match dictLookup "sideB" bkvs with
    | none => some []
    | some (.list l) => some l
    | some _ => none
  pure (sa, sb)

/-- The Global Event built for an escalated war (lines 358-375). -/
def mkConflictEvent (eventId : String) (ts : PyDateTime) (wkvs : List (String × Value))
    (participants : List Value) : Value :=
  let conflictName := (dictLookup "conflictName" wkvs).getD (.str "Unnamed Conflict")
  let eventData : Value := .dict [
    ("conflictName", conflictName),
    ("description", .str ("Significant escalation in " ++ pyRepr conflictName ++ " due to high casualties.")),
    ("belligerents", (dictLookup "belligerents" wkvs).getD (.dict [("sideA", .list []), ("sideB", .list [])])),
    ("status", .str "Escalated"),
    ("startDate", .str ts.fmtDate)]
  .dict [
    ("eventId", .str eventId),
    ("eventType", .str "Conflict"),
    ("eventData", eventData),
    ("parentEventId", (dictLookup "eventId" wkvs).getD .null),
    ("childEventIds", .list []),
    ("siblingEventIds", .list []),
    ("participatingNations", .list participants),
    ("ramifications", .list [
      .dict [("ramificationType", .str "Military"), ("severity", .str "High"),
             ("affectedParties", .list participants),
             ("description", .str "Conflict intensity increases."), ("timeframe", .str "Short-Term")],
      .dict [("ramificationType", .str "Political"), ("severity", .str "Moderate"),
             ("affectedParties", .list participants),
             ("description", .str "Increased political pressure."), ("timeframe", .str "Medium-Term")]])]

/-- The `for war in activeWars` loop of `check_conflicts` (lines 351-376),
threading the uuid counter. -/
def checkConflictsGo (uuidGen : Nat → String) (ts : PyDateTime) :
    Nat → List Value → Option (List Value × Nat)
  | ctr, [] => some ([], ctr)
  | ctr, war :: rest =>
    match war with
    | .dict wkvs => do
      let trig ← warTriggered wkvs
      if trig then do
        let sides ← sideLists wkvs
        let ev := mkConflictEvent (uuidGen ctr) ts wkvs (sides.1 ++ sides.2)
        let r ← checkConflictsGo uuidGen ts (ctr + 1) rest
        pure (ev :: r.1, r.2)
      else checkConflictsGo uuidGen ts ctr rest
    | _ => none

/-- `check_conflicts` (lines 347-376): append one Conflict event per
escalated war to the in-memory pending list; the document itself is
untouched. -/
def checkConflicts (uuidGen : Nat → String) (st : EngineState) : Option EngineState := do
  let wars ← activeWarsOf st.gs.doc
  let r ← checkConflictsGo uuidGen st.timeStep st.uuidCtr wars
  pure { st with pendingEvents := st.pendingEvents ++ r.1, uuidCtr := r.2 }

/-- The Global Event built for an economic downturn (lines 386-403);
the `:.2%` rendering of the growth rate is approximated by `pyRepr`. -/
def mkEconEvent (eventId : String) (ts : PyDateTime) (nationKey : String)
    (nationName : Value) (gdpGrowth : Value) : Value :=
  let eventData : Value := .dict [
    ("eventName", .str ("Economic Downturn in " ++ pyRepr nationName)),
    ("description", .str ("Severe economic contraction triggered by GDP growth falling to " ++ pyRepr gdpGrowth ++ ".")),
    ("economicIndicators", .dict [("gdpGrowthRate", gdpGrowth), ("unemploymentRate", .str "Rising")]),
    ("affectedSectors", .list [.str "Multiple", .str "Finance", .str "Industry"]),
    ("governmentResponse", .str "Pending"),
    ("startDate", .str ts.fmtDate)]
  .dict [
    ("eventId", .str eventId),
    ("eventType", .str "Economic Event"),
    ("eventData", eventData),
    ("parentEventId", .null),
    ("childEventIds", .list []),
    ("siblingEventIds", .list []),
    ("participatingNations", .list [.str nationKey]),
    ("ramifications", .list [
      .dict [("ramificationType", .str "Economic"), ("severity", .str "High"),
             ("affectedParties", .list [.str nationKey]),
             ("description", .str "Risk of recession, increased unemployment."), ("timeframe", .str "Medium-Term")],
      .dict [("ramificationType", .str "Political"), ("severity", .str "Moderate"),
             ("affectedParties", .list [.str nationKey]),
             ("description", .str "Government faces pressure."), ("timeframe", .str "Medium-Term")]])]

/-- The `for nation_id, nation_obj in nations.items()` loop of
`check_economic_events` (lines 380-404). -/
def checkEconomicGo (uuidGen : Nat → String) (ts : PyDateTime) :
    Nat → List (String × Value) → Option (List Value × Nat)
  | ctr, [] => some ([], ctr)
  | ctr, (nid, nobj) :: rest =>
    match nobj with
    | .dict nkvs => do
      let econ ← match dictLookup "internalAffairs" nkvs with
        | none => some []
        | some (.dict ikvs) =>
          match dictLookup "economicIndicators" ikvs with
          | none => some []
          | some (.dict ekvs) => some ekvs
          | some _ => none
        | some _ => none
      let gdpVal := (dictLookup "gdpGrowthRate" econ).getD (.num (PyNum.ofInt 0))
      if isNumericValue gdpVal && PyNum.blt (toNum gdpVal) ⟨-3, 100⟩ then do
        let nationName := (dictLookup "name" nkvs).getD (.str nid)
        let ev := mkEconEvent (uuidGen ctr) ts nid nationName gdpVal
        let r ← checkEconomicGo uuidGen ts (ctr + 1) rest
        pure (ev :: r.1, r.2)
      else checkEconomicGo uuidGen ts ctr rest
    | _ => none

/-- `check_economic_events` (lines 378-404). -/
def checkEconomicEvents (uuidGen : Nat → String) (st : EngineState) : Option EngineState := do
  let nations ← match st.gs.doc with
    | .dict kvs =>
      match dictLookup "nations" kvs with
      | none => some []
      | some (.dict nkvs) => some nkvs
      | some _ => none
    | _ => none
  let r ← checkEconomicGo uuidGen st.timeStep st.uuidCtr nations
  pure { st with pendingEvents := st.pendingEvents ++ r.1, uuidCtr := r.2 }

/-- `evaluate_conditions` (lines 339-345): the two implemented domain scans
in order. -/
def evaluateConditions (uuidGen : Nat → String) (st : EngineState) : Option EngineState := do
  let st1 ← checkConflicts uuidGen st
  checkEconomicEvents uuidGen st1

/-- Prefix test on character lists. -/
def listIsPrefix : List Char → List Char → Bool
  | [], _ => true
  | _ :: _, [] => false
  | a :: as, b :: bs => a == b && listIsPrefix as bs

/-- Substring containment on character lists. -/
def listContainsSub (sub hay : List Char) : Bool :=
  match hay with
  | [] => listIsPrefix sub []
  | _ :: rest => listIsPrefix sub hay || listContainsSub sub rest

/-- `process_user_input` (lines 408-411): the prevent-war override filters
Conflict events out of the pending list; `none` models the raise on a
non-dict pending event. -/
def processUserInput (st : EngineState) (userInput : String) : Option EngineState :=
  if listContainsSub "prevent war".toList userInput.toLower.toList then do
    let kept ← st.pendingEvents.filterM (fun ev =>
      match ev with
      | .dict kvs => some (!(pyEq ((dictLookup "eventType" kvs).getD .null) (.str "Conflict")))
      | _ => none)
    pure { st with pendingEvents := kept }
  else pure st

/-- `update_json_schemas` (lines 418-421): extend `global_state["globalEvents"]`
with the pending events; nothing is dispatched by event type. -/
def updateJsonSchemas (st : EngineState) : Option EngineState :=
  if st.pendingEvents.isEmpty then some st
  else
    match st.gs.doc with
    | .dict kvs =>
      match dictLookup "globalEvents" kvs with
      | some (.list evs) =>
        some { st with gs := { st.gs with
          doc := .dict (dictSet "globalEvents" (.list (evs ++ st.pendingEvents)) kvs) } }
      | _ => none
    | _ => none

/-- `summarize_changes` (lines 423-433): the per-event display lines. -/
def summarizeChanges (st : EngineState) : Option String :=
  if st.pendingEvents.isEmpty then some "No new events triggered this step."
  else do
    let lines ← st.pendingEvents.mapM (fun ev =>
      match ev with
      | .dict kvs =>
        match (dictLookup "eventData" kvs).getD (.dict []) with
        | .dict dkvs =>
          let name := (dictLookup "eventName" dkvs).getD
            ((dictLookup "conflictName" dkvs).getD ((dictLookup "eventId" kvs).getD .null))
          let date := (dictLookup "startDate" dkvs).getD (.str st.timeStep.fmtDate)
          some (pyRepr date ++ ": " ++ pyRepr name ++ " - " ++
                pyRepr ((dictLookup "eventType" kvs).getD (.str "Unknown")))
        | _ => none
      | _ => none)
    pure (String.intercalate "\n" lines)

/-- `advance_time` (lines 413-416): step `time_step` forward and write the
formatted date into `global_state["current_date"]`. -/
def advanceTime (st : EngineState) (days : Nat) : EngineState :=
  let ts := st.timeStep.addDays days
  { st with timeStep := ts, gs := { st.gs with doc := docSetKey st.gs.doc "current_date" (.str ts.fmtDate) } }

/-- Name scan of `_get_nation_data` (lines 514-517): first nations entry
whose record is a dict with `name` equal to the identifier. -/
def nameScan : List (String × Value) → Value → Option String
  | [], _ => none
  | (k, v) :: rest, ident =>
    match v with
    | .dict vkvs =>
      if pyEq ((dictLookup "name" vkvs).getD .null) ident then some k
      else nameScan rest ident
    | _ => nameScan rest ident

/-- `_get_nation_data` (lines 497-521), returning the key under
`global_state["nations"]` at which the record sits (the source returns the
aliased record; mutations through the alias are modelled as writes at this
key).  `none` covers not-found and a non-dict nations map — the source warns
and returns `None` in both cases, no exception. -/
def getNationKey (doc : Value) (ident : Value) : Option String :=
  match doc with
  | .dict kvs =>
    match dictLookup "nations" kvs with
    | some (.dict nkvs) =>
      match ident with
      | .str s => if (dictLookup s nkvs).isSome then some s else nameScan nkvs ident
      | _ => nameScan nkvs ident
    | _ => none
  | _ => none

/-- `_create_nationwide_impact` (lines 545-552). -/
def mkNationwideImpact (impactId : String) (nationId globalEventId : Value)
    (ts : PyDateTime) (description : String) : Value :=
  .dict [
    ("impactId", .str impactId), ("nationId", nationId),
    ("originGlobalEventId", globalEventId),
    ("impactTriggerDate", .str ts.fmtDate), ("description", .str description),
    ("effectIds", .list []), ("isActive", .bool true), ("estimatedEndDate", .null)]

/-- `effect_type_map.get(·, "Other")` (lines 558-563). -/
def effectTypeMap (k : Value) : Value :=
  match k with
  | .str "Political" => .str "Political Shift"
  | .str "Economic" => .str "Economic Change"
  | .str "Social" => .str "Social Upheaval"
  | .str "Technological" => .str "Technological Advancement"
  | .str "Military" => .str "Military Posture Change"
  | .str "Diplomatic" => .str "Diplomatic Realignment"
  | .str "Environmental" => .str "Environmental Consequence"
  | .str "Cultural" => .str "Cultural Trend"
  | .str "Humanitarian" => .str "Resource Strain"
  | .str "Legal" => .str "Political Shift"
  | .str "Other" => .str "Other"
  | _ => .str "Other"

/-- `severity_map.get(·, "Low")` (lines 564-567). -/
def severityMap (k : Value) : Value :=
  match k with
  | .str "Minimal" => .str "Minimal"
  | .str "Low" => .str "Low"
  | .str "Moderate" => .str "Moderate"
  | .str "High" => .str "High"
  | .str "Severe" => .str "Severe"
  | .str "Critical" => .str "Critical"
  | .str "Unprecedented" => .str "Transformative"
  | _ => .str "Low"

/-- The key/value rows of the Effect dict built by `_create_effect`
(lines 554-575), named so the synthesis proofs can speak about the record. -/
def effectKvs (effectId : String) (nationId : Value) (impactId : String)
    (hkvs : List (String × Value)) (ts : PyDateTime) : List (String × Value) :=
  [("effectId", .str effectId), ("originImpactId", .str impactId), ("nationId", nationId),
   ("effectType", effectTypeMap ((dictLookup "ramificationType" hkvs).getD (.str "Other"))),
   ("description", .str ("Broad effect: " ++ pyRepr ((dictLookup "description" hkvs).getD (.str "General consequence")))),
   ("severity", severityMap ((dictLookup "severity" hkvs).getD (.str "Low"))),
   ("startDate", .str ts.fmtDate), ("isActive", .bool true), ("estimatedEndDate", .null),
   ("ramificationIds", .list []), ("nationalMemoryImpact", .str "Moderately Remembered")]

/-- `_create_effect` (lines 554-575) given the freshly drawn effect id.
Outer `none` = exception (`hint.get` on a truthy non-dict hint); inner
`none` = the source's `return None` on a falsy hint. -/
def createEffect (effectId : String) (nationId : Value) (impactId : String)
    (hint : Value) (ts : PyDateTime) : Option (Option Value) :=
  if !(pyTruthy hint) then some none
  else
    match hint with
    | .dict hkvs => some (some (.dict (effectKvs effectId nationId impactId hkvs ts)))
    | _ => none

/-- The validity test and assembly of `_create_ramification_with_ai`
(lines 664-689) given the oracle's output for this call and the fresh
ramification id: the output must be a non-empty dict carrying `targetPath`,
`operation` and `value`; the built record is `pending` with `executionTime`
the current simulated time. -/
def assembleAiRamification (aiOut : Option (List (String × Value)))
    (nationId : Value) (effectId ramId : String) (ts : PyDateTime) : Option Ramification :=
  match aiOut with
  | some data =>
    if !data.isEmpty && (dictLookup "targetPath" data).isSome &&
        (dictLookup "operation" data).isSome && (dictLookup "value" data).isSome then
      some { ramificationId := ramId, originEffectId := effectId, nationId := nationId,
             description := (dictLookup "description" data).getD
               (.str ("AI generated ramification for effect " ++ effectId)),
             targetPath := (dictLookup "targetPath" data).getD .null,
             operation := (dictLookup "operation" data).getD .null,
             value := (dictLookup "value" data).getD .null,
             valueIdentifier := .null,
             executionTime := some ts.fmtIso,
             status := some "pending",
             failureReason := none }
    else none
  | none => none

/-- The first-match replacement loops of lines 482-485 and 491-494:
replace the first record whose `key` entry `pyEq`-equals `idVal`; a record
without the key raises (`none`); no match leaves the list as is. -/
def replaceFirstByKey (key : String) (idVal newRec : Value) : List Value → Option (List Value)
  | [] => some []
  | e :: rest =>
    match e with
    | .dict ekvs =>
      match dictLookup key ekvs with
      | some v =>
        if pyEq v idVal then some (newRec :: rest)
        else (replaceFirstByKey key idVal newRec rest).map (fun l => e :: l)
      | none => none
    | _ => none

/-- Update the record at the final position of a list (the write through the
alias of a just-appended record). -/
def setLast (xs : List Value) (v : Value) : List Value :=
  xs.set (xs.length - 1) v

/-- Read `global_state["effects"]` as a list (`none`: missing key or
non-list, whose `.append` raises). -/
def effectsListOf (doc : Value) : Option (List Value) :=
  match doc with
  | .dict kvs =>
    match dictLookup "effects" kvs with
    | some (.list es) => some es
    | _ => none
  | _ => none

/-- Write `global_state["effects"]`. -/
def setEffectsList (doc : Value) (es : List Value) : Value :=
  docSetKey doc "effects" (.list es)

/-- Read the record of one nation by key. -/
def nationRecordOf (doc : Value) (nkey : String) : Option (List (String × Value)) :=
  match doc with
  | .dict kvs =>
    match dictLookup "nations" kvs with
    | some (.dict nkvs) =>
      match dictLookup nkey nkvs with
      | some (.dict rec) => some rec
      | _ => none
    | _ => none
  | _ => none

/-- Write the record of one nation by key (the alias write of the source). -/
def setNationRecord (doc : Value) (nkey : String) (rec : List (String × Value)) : Value :=
  match doc with
  | .dict kvs =>
    match dictLookup "nations" kvs with
    | some (.dict nkvs) => .dict (dictSet "nations" (.dict (dictSet nkey (.dict rec) nkvs)) kvs)
    | _ => doc
  | _ => doc

/-- Per-hint body of the synthesis loop (lines 463-485): draw the effect id,
build and append the Effect, run the oracle once (unless the hint was falsy
or the ramification schema never loaded), append the built Ramification to
the collection, then write the Effect's `ramificationIds` back — first
through the alias (final position), then via the first-match scan.  The
accumulator carries the generated effect ids for the surrounding impact. -/
def processHint (oracle : AiOracle) (uuidGen : Nat → String) (nationIdVal : Value)
    (impactId : String) (acc : EngineState × List Value) (hint : Value) :
    Option (EngineState × List Value) := do
  let st := acc.1
  if !(pyTruthy hint) then
    -- `_create_effect` returned None: no effect, no oracle call
    pure acc
  else do
    let effectId := uuidGen st.uuidCtr
    let st := { st with uuidCtr := st.uuidCtr + 1 }
    let effOpt ← createEffect effectId nationIdVal impactId hint st.timeStep
    match effOpt with
    | none => pure (st, acc.2)
    | some effect => do
      let es ← effectsListOf st.gs.doc
      let st := { st with gs := { st.gs with doc := setEffectsList st.gs.doc (es ++ [effect]) } }
      -- `_create_ramification_with_ai`: early return before the AI call
      -- when the schema is missing (hint truthiness already established)
      let aiOut := if st.ramSchemaLoaded then oracle st.aiCtr else none
      let st := if st.ramSchemaLoaded then { st with aiCtr := st.aiCtr + 1 } else st
      let ramOpt := assembleAiRamification aiOut nationIdVal effectId (uuidGen st.uuidCtr) st.timeStep
      let st := if ramOpt.isSome then { st with uuidCtr := st.uuidCtr + 1 } else st
      let st :=
        match ramOpt with
        | some ram => { st with gs := { st.gs with ramifications := st.gs.ramifications ++ [ram] } }
        | none => st
      let ramIds : Value := .list (match ramOpt with
        | some ram => [.str ram.ramificationId]
        | none => [])
      let effectUpd := match effect with
        | .dict ekvs => Value.dict (dictSet "ramificationIds" ramIds ekvs)
        | v => v
      let es2 ← effectsListOf st.gs.doc
      let es3 := setLast es2 effectUpd
      let es4 ← replaceFirstByKey "effectId" (.str effectId) effectUpd es3
      let st := { st with gs := { st.gs with doc := setEffectsList st.gs.doc es4 } }
      pure (st, acc.2 ++ [Value.str effectId])

/-- The write-back tail of the per-nation loop (lines 487-494): set the
impact's `effectIds`, then store it through the alias (final position) and
the first-match scan. -/
def processNationWriteBack (nkey : String) (impactId : String) (impact : Value)
    (r : EngineState × List Value) : Option EngineState := do
  let st := r.1
  let impactUpd := match impact with
    | .dict ikvs => Value.dict (dictSet "effectIds" (.list r.2) ikvs)
    | v => v
  let rec1 ← nationRecordOf st.gs.doc nkey
  let impacts1 ← match dictLookup "nationwideImpacts" rec1 with
    | none => some []
    | some (.list l) => some l
    | some _ => none
  let impacts2 := setLast impacts1 impactUpd
  let impacts3 ← replaceFirstByKey "impactId" (.str impactId) impactUpd impacts2
  pure { st with gs := { st.gs with
    doc := setNationRecord st.gs.doc nkey (dictSet "nationwideImpacts" (.list impacts3) rec1) } }

/-- Per-nation body of the synthesis loop (lines 447-494): resolve the
nation (a miss is a logged skip, not an exception), create and append the
Nationwide Impact, process every general-ramification hint, then write the
impact's `effectIds` back through the alias and the first-match scan. -/
def processNation (oracle : AiOracle) (uuidGen : Nat → String) (ev eventIdVal : Value)
    (st : EngineState) (nationIdVal : Value) : Option EngineState := do
  match getNationKey st.gs.doc nationIdVal with
  | none => pure st
  | some nkey => do
    let evName ← match (match ev with
        | .dict ekvs => (dictLookup "eventData" ekvs).getD (.dict [])
        | _ => .dict []) with
      | .dict dkvs => some ((dictLookup "eventName" dkvs).getD eventIdVal)
      | _ => none
    let impactDesc := "Nation involved in/affected by: " ++ pyRepr evName
    let impactId := uuidGen st.uuidCtr
    let st := { st with uuidCtr := st.uuidCtr + 1 }
    let impact := mkNationwideImpact impactId nationIdVal eventIdVal st.timeStep impactDesc
    let rec0 ← nationRecordOf st.gs.doc nkey
    let impacts0 ← match dictLookup "nationwideImpacts" rec0 with
      | none => some []
      | some (.list l) => some l
      | some _ => none
    let st := { st with gs := { st.gs with
      doc := setNationRecord st.gs.doc nkey (dictSet "nationwideImpacts" (.list (impacts0 ++ [impact])) rec0) } }
    let hints ← match ev with
      | .dict ekvs =>
        match dictLookup "ramifications" ekvs with
        | none => some []
        | some (.list l) => some l
        | some (.dict []) => some []
        | some (.str "") => some []
        | some _ => none
      | _ => none
    let r ← hints.foldlM (processHint oracle uuidGen nationIdVal impactId) (st, [])
    processNationWriteBack nkey impactId impact r

/-- Per-event body of the synthesis loop (lines 442-445): read the event id
and the participant list (a falsy list skips the event), then process every
participant. -/
def processEvent (oracle : AiOracle) (uuidGen : Nat → String)
    (st : EngineState) (ev : Value) : Option EngineState := do
  match ev with
  | .dict ekvs => do
    let eventIdVal := (dictLookup "eventId" ekvs).getD (.str "unknown_event")
    let parts ← match dictLookup "participatingNations" ekvs with
      | none => some []
      | some (.list l) => some l
      | some v => if !(pyTruthy v) then some [] else none
    if parts.isEmpty then pure st
    else parts.foldlM (processNation oracle uuidGen ev eventIdVal) st
  | _ => none

/-- `apply_ramifications` (lines 435-494): the Impact → Effect → Ramification
chain over a copy of the pending list; an empty pending list returns at
once. -/
def applyRamifications (oracle : AiOracle) (uuidGen : Nat → String)
    (st : EngineState) : Option EngineState :=
  if st.pendingEvents.isEmpty then some st
  else st.pendingEvents.foldlM (processEvent oracle uuidGen) st

/-- `run_simulation_step` (lines 695-733): evaluate conditions, apply the
user override when input is non-empty, merge pending events into
`globalEvents`, render the summary, synthesize consequences, advance
simulated time by 30 days, clear the pending list, return the summary. -/
def runSimulationStep (oracle : AiOracle) (uuidGen : Nat → String)
    (st : EngineState) (userInput : String) : Option (EngineState × String) := do
  let st1 ← evaluateConditions uuidGen st
  let st2 ← if userInput ≠ "" then processUserInput st1 userInput else pure st1
  let st3 ← updateJsonSchemas st2
  let summary ← summarizeChanges st3
  let st4 ← applyRamifications oracle uuidGen st3
  let st5 := advanceTime st4 30
  pure ({ st5 with pendingEvents := [] }, summary)

/-- One iteration of `TimeEngine.main_loop` after command parsing
(time_engine.py lines 166-182): run the engine step — which advances
simulated time internally — then run `execute_pending_ramifications`
against the document's NEW `current_date` (``due by the *new* current
time``, line 172), then persist. -/
def timeEngineStep (oracle : AiOracle) (uuidGen : Nat → String)
    (st : EngineState) (userInput : String) : Option EngineState := do
  let r ← runSimulationStep oracle uuidGen st userInput
  let st1 := r.1
  let dateVal := match st1.gs.doc with
    | .dict kvs => (dictLookup "current_date" kvs).getD (.str "1970-01-01")
    | _ => .str "1970-01-01"
  let iso := pyRepr dateVal ++ "T00:00:00"
  pure { st1 with gs := executePendingRamifications st1.gs iso }

/-- The distinct actions of one simulation tick, for stating their order. -/
inductive StepPhase where
  | evaluateTriggers : StepPhase
  | userOverride : StepPhase
  | mergePendingEvents : StepPhase
  | renderSummary : StepPhase
  | synthesizeConsequences : StepPhase
  | advanceSimTime : StepPhase
  | clearPending : StepPhase
  | executeMutations : StepPhase
  | persistState : StepPhase
deriving DecidableEq, Repr

/-- The call sequence inside `EventEngine.run_simulation_step`
(lines 707-730), in source order. -/
def runSimulationStepPhases : List StepPhase :=
  [.evaluateTriggers, .userOverride, .mergePendingEvents, .renderSummary,
   .synthesizeConsequences, .advanceSimTime, .clearPending]

/-- The call sequence of one `TimeEngine.main_loop` iteration
(time_engine.py lines 169-182): the engine step — which contains the time
advance — then `execute_pending_ramifications`, then the save.
`run_auto_steps` (lines 198-214) has the same shape. -/
def timeEngineStepPhases : List StepPhase :=
  runSimulationStepPhases ++ [.executeMutations, .persistState]

/-!
### The response-payload extraction of `generate_json_object`
(event_engine.py lines 120-133)
-/

/-- Whitespace for `str.strip`. -/
def isPyWhitespace (c : Char) : Bool :=
  c == ' ' || c == '\t' || c == '\n' || c == '\r' || c == '\x0b' || c == '\x0c'

/-- `str.strip()` on a character list. -/
def pyStripChars (cs : List Char) : List Char :=
  ((cs.dropWhile isPyWhitespace).reverse.dropWhile isPyWhitespace).reverse

/-- The payload extraction of `generate_json_object` (lines 124-129): when
the raw response text is longer than 10 characters, take
`response.text.strip()[7:-3]` — a fixed-offset slice assuming a
seven-character fence prefix and three-character fence suffix — otherwise
use the stripped text directly. -/
def extractPayloadChars (raw : List Char) : List Char :=
  if raw.length > 10 then
    let s := pyStripChars raw
    (s.drop 7).take (s.length - 3 - 7)
  else pyStripChars raw

/-- String form of `extractPayloadChars`. -/
def extractPayload (raw : String) : String :=
  String.mk (extractPayloadChars raw.toList)

/-- The opening-brace character, written by code point. -/
def openBrace : Char := Char.ofNat 123

/-- The closing-brace character, written by code point. -/
def closeBrace : Char := Char.ofNat 125

/-- Modelled from the spec: the extraction §6 describes — locate the first
opening brace or bracket and the matching last closing delimiter and return
the enclosed text (text without such delimiters is returned whole).  Stated
only to compare with the source's `extractPayloadChars`. -/
def specExtractPayloadChars (raw : List Char) : List Char :=
  match raw.findIdx? (fun c => c == openBrace || c == '[') with
  | none => raw
  | some i =>
    let closeCh := if raw.get? i = some openBrace then closeBrace else ']'
    match raw.reverse.findIdx? (fun c => c == closeCh) with
    | none => raw
    | some rj =>
      let j := raw.length - 1 - rj
      if i ≤ j then (raw.drop i).take (j + 1 - i) else raw

/-!
### Auxiliary predicates used in theorem statements, and concrete fixtures
-/

/-- The escalation predicate lifted to a raw war record (`false` on shapes
whose scan would raise or not trigger). -/
def warTriggeredB (w : Value) : Bool :=
  match w with
  | .dict wkvs => (warTriggered wkvs).getD false
  | _ => false

/-- The prefix-of-dicts condition under which `_set_nested_value` can only
meet or create dict containers along a path. -/
def dictsAlong : Value → List String → Bool
  | _, [] => true
  | .dict kvs, k :: rest =>
    (match dictLookup k kvs with
     | some v => dictsAlong v rest
     | none => true)
  | _, _ :: _ => false

/-- A deterministic stand-in for the `uuid.uuid4()` supply. -/
def uuidSeq : Nat → String :=
  fun n => "uuid-" ++ natToString n

/-- An oracle whose every call fails its retry budget. -/
def noOracle : AiOracle := fun _ => none

/-- An oracle that always returns one fixed valid ramification object. -/
def okOracle : AiOracle :=
  fun _ => some [("targetPath", .str "nations.USA.internalAffairs.stability"),
                 ("operation", .str "subtract"), ("value", .num ⟨15, 1⟩),
                 ("description", .str "Decrease stability.")]

/-- Executor fixture: one due pending `divide`-by-zero ramification over a
numeric target. -/
def exDivZero : SimState :=
  { doc := .dict [("x", .num (PyNum.ofInt 10))]
    ramifications := [{
      targetPath := .str "x"
      operation := .str "divide"
      value := .num (PyNum.ofInt 0)
      executionTime := some "1975-01-15T10:00:00"
      status := some "pending" }] }

/-- Executor fixture: `remove_item` by value over a list holding the value
twice, with another element between. -/
def cexC4 : SimState :=
  { doc := .dict [("l", .list [.num ⟨1, 1⟩, .num ⟨2, 1⟩, .num ⟨1, 1⟩])]
    ramifications := [{
      targetPath := .str "l"
      operation := .str "remove_item"
      value := .num ⟨1, 1⟩
      executionTime := some "1975-01-15T10:00:00"
      status := some "pending" }] }

/-- Executor fixture: a `set` whose missing segment `arr` is followed by the
final digit segment `0`. -/
def cexC6 : SimState :=
  { doc := .dict [("nations", .dict [("USA", .dict [("internalAffairs",
      .dict [("stability", .num ⟨50, 1⟩)])])])]
    ramifications := [{
      targetPath := .str "nations.USA.arr.0"
      operation := .str "set"
      value := .num ⟨5, 1⟩
      executionTime := some "1975-01-15T10:00:00"
      status := some "pending" }] }

/-- Executor fixture: a `set` whose missing segment `a` is followed by the
non-final digit segment `5`. -/
def cexC10 : SimState :=
  { doc := .dict [("nations", .dict [("USA", .dict [("internalAffairs",
      .dict [("stability", .num ⟨50, 1⟩)])])])]
    ramifications := [{
      targetPath := .str "nations.USA.a.5.b"
      operation := .str "set"
      value := .num ⟨1, 1⟩
      executionTime := some "1975-01-15T10:00:00"
      status := some "pending" }] }

/-- A pending Conflict-typed event, as the Condition Evaluator would shape it
(only the fields the merge could dispatch on matter here). -/
def conflictPendingEvent : Value :=
  .dict [("eventId", .str "ev-1"), ("eventType", .str "Conflict"),
         ("eventData", .dict [("conflictName", .str "Border War")]),
         ("participatingNations", .list [.str "USA"]),
         ("ramifications", .list [])]

/-- Engine fixture for the merge: one pending Conflict event, empty logs. -/
def cexC3 : EngineState :=
  { gs := {
      doc := .dict [
        ("current_date", .str "1975-01-01"),
        ("nations", .dict []),
        ("globalEvents", .list []),
        ("effects", .list []),
        ("conflicts", .dict [("activeWars", .list [])]),
        ("globalEconomy", .list [])]
      ramifications := [] }
    pendingEvents := [conflictPendingEvent]
    timeStep := ⟨1975, 1, 1, 0, 0, 0⟩ }

/-- Engine fixture for the step ordering: nothing to trigger or merge, and
one pre-existing pending ramification whose `executionTime` is exactly the
post-advance date — due only if the clock moves first. -/
def cexC2 : EngineState :=
  { gs := {
      doc := .dict [("current_date", .str "1975-01-01")]
      ramifications := [{
        targetPath := .str "marker"
        operation := .str "set"
        value := .num ⟨1, 1⟩
        executionTime := some "1975-01-31T00:00:00"
        status := some "pending" }] }
    pendingEvents := []
    timeStep := ⟨1975, 1, 1, 0, 0, 0⟩ }

/-- A war past the escalation threshold. -/
def warHot : Value :=
  .dict [("conflictName", .str "Great War"), ("status", .str "Ongoing"),
         ("casualties", .dict [("military", .num ⟨12000, 1⟩)]),
         ("belligerents", .dict [("sideA", .list [.str "USA"]),
                                 ("sideB", .list [.str "USSR"])]),
         ("eventId", .str "war-ev-1")]

/-- A war whose military-casualty field is a string: coerced to `0`,
so never escalating — and never raising. -/
def warMalformed : Value :=
  .dict [("conflictName", .str "Quiet War"), ("status", .str "Ongoing"),
         ("casualties", .dict [("military", .str "unknown")]),
         ("belligerents", .dict [("sideA", .list [.str "UK"]),
                                 ("sideB", .list [.str "FR"])])]

/-- Engine fixture for the conflict scan: one escalating war and one
malformed-casualty war. -/
def exC7 : EngineState :=
  { gs := {
      doc := .dict [
        ("current_date", .str "1975-01-01"),
        ("nations", .dict []),
        ("globalEvents", .list []),
        ("effects", .list []),
        ("conflicts", .dict [("activeWars", .list [warHot, warMalformed])])]
      ramifications := [] }
    pendingEvents := []
    timeStep := ⟨1975, 1, 1, 0, 0, 0⟩ }

/-- Engine fixture for one hint of consequence synthesis. -/
def exC8 : EngineState :=
  { gs := {
      doc := .dict [
        ("current_date", .str "1975-01-01"),
        ("nations", .dict [("USA", .dict [("name", .str "United States")])]),
        ("globalEvents", .list []),
        ("effects", .list [])]
      ramifications := [] }
    pendingEvents := []
    timeStep := ⟨1975, 1, 1, 0, 0, 0⟩ }

/-- The general-ramification hint used with `exC8`. -/
def hintC8 : Value :=
  .dict [("ramificationType", .str "Military"), ("severity", .str "High"),
         ("affectedParties", .list [.str "USA"]),
         ("description", .str "Conflict intensity increases."),
         ("timeframe", .str "Short-Term")]

/-- The concrete outcome of processing `hintC8` at `exC8` under the valid
oracle. -/
def resC8 : EngineState × List Value :=
  (processHint okOracle uuidSeq (Value.str "USA") "impact-0" (exC8, []) hintC8).getD (exC8, [])

/-- The concrete outcome of the engine step at `cexC2`. -/
def rC2 : EngineState × String :=
  (runSimulationStep noOracle uuidSeq cexC2 "").getD (cexC2, "")

/-- An unfenced service response longer than ten characters. -/
def cexC9 : String := "\x7b\x22abcdefgh\x22: 1\x7d"

/-!
### Shared lemmas
-/

set_option maxRecDepth 10000

theorem dictLookup_dictSet_self (k : String) (v : Value) (kvs : List (String × Value)) :
    dictLookup k (dictSet k v kvs) = some v := by
  induction kvs with
  | nil => simp [dictSet, dictLookup]
  | cons hd tl ih =>
    obtain ⟨k2, w⟩ := hd
    by_cases h : k2 = k
    · simp [dictSet, dictLookup, h]
    · simp [dictSet, dictLookup, h, ih]

theorem dictLookup_dictSet_ne (k k2 : String) (v : Value) (kvs : List (String × Value))
    (h : k2 ≠ k) : dictLookup k2 (dictSet k v kvs) = dictLookup k2 kvs := by
  induction kvs with
  | nil => simp [dictSet, dictLookup, Ne.symm h]
  | cons hd tl ih =>
    obtain ⟨k3, w⟩ := hd
    by_cases h3 : k3 = k
    · subst h3
      have h32 : k3 ≠ k2 := fun hh => h (hh ▸ rfl)
      simp [dictSet, dictLookup, h32]
    · simp [dictSet, dictLookup, h3, ih]

theorem pyEq_str (a b : String) : pyEq (.str a) (.str b) = (a == b) := by
  simp [pyEq]

theorem setLast_append (xs : List Value) (x y : Value) :
    setLast (xs ++ [x]) y = xs ++ [y] := by
  simp [setLast]

/-- The generic invariant carrier for the `Option`-valued folds. -/
theorem foldlM_option_preserve {σ α : Type} (f : σ → α → Option σ) (P : σ → Prop)
    (hf : ∀ s a s2, f s a = some s2 → P s → P s2) :
    ∀ (l : List α) (s s2 : σ), List.foldlM f s l = some s2 → P s → P s2 := by
  intro l
  induction l with
  | nil => intro s s2 h hp; simp [List.foldlM] at h; exact h ▸ hp
  | cons hd tl ih =>
    intro s s2 h hp
    simp only [List.foldlM, Option.bind_eq_bind, Option.bind_eq_some] at h
    obtain ⟨s1, h1, h2⟩ := h
    exact ih s1 s2 h2 (hf s hd s1 h1 hp)

/-!
### C10 — a failed `set` is not atomic with respect to the document
-/

/-- C10: for the state `cexC10` — one due pending `set` Ramification whose
`targetPath` `nations.USA.a.5.b` has the missing segment `a` followed by the
non-zero digit segment `5` — `execute_pending_ramifications` marks the
Ramification `failed`, yet the document differs from its pre-call state: an
empty list was created at `nations.USA.a` before the set failed. -/
theorem failed_set_mutates_document :
    (executePendingRamifications cexC10 "1975-01-31T00:00:00").ramifications.map
        Ramification.status = [some "failed"]
    ∧ (executePendingRamifications cexC10 "1975-01-31T00:00:00").doc ≠ cexC10.doc
    ∧ (executePendingRamifications cexC10 "1975-01-31T00:00:00").doc
        = .dict [("nations", .dict [("USA", .dict [("internalAffairs",
            .dict [("stability", .num ⟨50, 1⟩)]), ("a", .list [])])])] := by
  refine ⟨rfl, ?_, rfl⟩
  have h : (executePendingRamifications cexC10 "1975-01-31T00:00:00").doc
      = .dict [("nations", .dict [("USA", .dict [("internalAffairs",
          .dict [("stability", .num ⟨50, 1⟩)]), ("a", .list [])])])] := rfl
  rw [h]
  simp [cexC10]

/-!
### C5 — `divide` by zero is a defined failure
-/

/-- C5: a due pending Ramification with operation `divide` and value `0`
whose `targetPath` resolves to a numeric current value is marked `failed`
with the divide-by-zero `failureReason`; no exception escapes (the embedded
step is total: failure is recorded in the record), and the document — hence
the value at the target path — is unchanged by this ramification's
processing.  The final conjunct states the same for a full
`execute_pending_ramifications` call over a single-ramification collection. -/
theorem divide_by_zero_defined_failure
    (st : SimState) (j : Nat) (ram : Ramification) (now et : PyDateTime)
    (path ets : String) (cur par : Value)
    (hram : st.ramifications[j]? = some ram)
    (hstatus : ram.status = some "pending")
    (hop : ram.operation = .str "divide")
    (hval : ram.value = .num (PyNum.ofInt 0))
    (hpath : ram.targetPath = .str path)
    (hptruthy : path ≠ "")
    (het : ram.executionTime = some ets)
    (hetp : fromIsoformat? ets = some et)
    (hdue : et.ble now = true)
    (hres : getNestedValue st.doc (splitPath path) = some (cur, par))
    (_hnum : isNumericValue cur = true) :
    (processIndex now st j).doc = st.doc
    ∧ (processIndex now st j).ramifications[j]? =
        some { ram with status := some "failed", failureReason := some "Cannot divide by zero." }
    ∧ (∀ t, st.ramifications = [ram] → j = 0 → fromIsoformat? t = some now →
        (executePendingRamifications st t).doc = st.doc
        ∧ (executePendingRamifications st t).ramifications =
            [{ ram with status := some "failed", failureReason := some "Cannot divide by zero." }]) := by
  have hlt : j < st.ramifications.length := by
    rcases List.getElem?_eq_some.mp hram with ⟨h, _⟩
    exact h
  have happly : applyOperation st.doc path (.str "divide") ram.value ram.valueIdentifier
      = (false, "Cannot divide by zero.", st.doc) := by
    rw [hval]
    simp only [applyOperation, hres]
    simp [isNumericValue, pyEq, PyNum.ofInt, PyNum.beq]
  have hmain : processIndex now st j
      = setRam st j { ram with status := some "failed", failureReason := some "Cannot divide by zero." } := by
    simp only [processIndex, hram, hstatus, het, hetp, Option.some_bind, hdue, if_true]
    simp only [hpath, hop, pyTruthy]
    have hp : (path != "") = true := by
      simp [hptruthy]
    simp [hp, happly]
  refine ⟨?_, ?_, ?_⟩
  · rw [hmain]; simp [setRam]
  · rw [hmain]; simp [setRam, List.getElem?_set_self hlt]
  · intro t hsing hj hparse
    subst hj
    have hidxs : (List.range st.ramifications.length).filter
        (fun i => (st.ramifications[i]?).any (fun r => r.status == some "pending")) = [0] := by
      rw [hsing]
      simp [List.range_succ, hstatus]
    have hfold : executePendingRamifications st t = processIndex now st 0 := by
      simp only [executePendingRamifications, hparse, hidxs, List.foldl]
    refine ⟨?_, ?_⟩
    · rw [hfold, hmain]; simp [setRam]
    · rw [hfold, hmain]; simp [setRam, hsing]

/-- Witness for C5 at the fixture `exDivZero`. -/
theorem divide_by_zero_defined_failure_witness :
    (processIndex ⟨1975, 1, 31, 0, 0, 0⟩ exDivZero 0).doc = exDivZero.doc
    ∧ (executePendingRamifications exDivZero "1975-01-31T00:00:00").ramifications
        = [{ targetPath := .str "x", operation := .str "divide", value := .num (PyNum.ofInt 0), executionTime := some "1975-01-15T10:00:00", status := some "failed", failureReason := some "Cannot divide by zero." }] := by
  have h := divide_by_zero_defined_failure exDivZero 0
    { targetPath := .str "x", operation := .str "divide", value := .num (PyNum.ofInt 0), executionTime := some "1975-01-15T10:00:00", status := some "pending" }
    ⟨1975, 1, 31, 0, 0, 0⟩ ⟨1975, 1, 15, 10, 0, 0⟩ "x" "1975-01-15T10:00:00"
    (.num (PyNum.ofInt 10)) (.dict [("x", .num (PyNum.ofInt 10))])
    rfl rfl rfl rfl rfl (by decide) rfl rfl rfl rfl rfl
  exact ⟨h.1, (h.2.2 "1975-01-31T00:00:00" rfl rfl rfl).2⟩

/-!
### C4 — `remove_item`
-/

theorem removeMatchingScan_eq (ident value : Value) (xs : List Value) :
    removeMatchingScan ident value xs
      = (xs.any (removeItemMatches ident value),
         xs.filter (fun it => !(removeItemMatches ident value it))) := by
  induction xs with
  | nil => simp [removeMatchingScan]
  | cons hd tl ih =>
    simp only [removeMatchingScan, ih, List.any_cons, List.filter_cons]
    by_cases h : removeItemMatches ident value hd
    · simp [h]
    · simp [h]

/-- C4 counterexample: for the state `cexC4` — a due pending `remove_item`
with no `valueIdentifier` over the list `[1, 2, 1]` and value `1` — the call
removes BOTH matching elements, leaving `[2]`; the claim's prediction (only
the first match removed, every later element retained, i.e. `[2, 1]`) is
false on the code. -/
theorem remove_item_removes_all_matches_counterexample :
    (executePendingRamifications cexC4 "1975-01-31T00:00:00").ramifications.map
        Ramification.status = [some "executed"]
    ∧ (executePendingRamifications cexC4 "1975-01-31T00:00:00").doc
        = .dict [("l", .list [.num ⟨2, 1⟩])]
    ∧ ¬ ((executePendingRamifications cexC4 "1975-01-31T00:00:00").doc
        = .dict [("l", .list [.num ⟨2, 1⟩, .num ⟨1, 1⟩])]) := by
  refine ⟨rfl, rfl, ?_⟩
  have h : (executePendingRamifications cexC4 "1975-01-31T00:00:00").doc
      = .dict [("l", .list [.num ⟨2, 1⟩])] := rfl
  rw [h]
  simp

/-- C4 as amended: for a due `remove_item`, when the path's last segment is
a digit index into the parent list that index is deleted; otherwise, when
the path resolves to a list (under a dict parent), EVERY element matching
the single-key `valueIdentifier` (or equal to `value` when the identifier is
falsy) is removed — not only the first — and the operation fails when
nothing matches. -/
theorem remove_item_spec (doc : Value) (path : String) (value ident : Value) :
    (∀ pkvs xs, getNestedValue doc (splitPath path) = some (.list xs, .dict pkvs) →
      applyOperation doc path (.str "remove_item") value ident =
        (if xs.any (removeItemMatches ident value) then
          (true, "", rewriteAt doc (splitPath path)
            (fun _ => .list (xs.filter (fun it => !(removeItemMatches ident value it)))))
         else (false, "Item not found for remove_item using value/identifier.", doc)))
    ∧ (∀ cur pxs, getNestedValue doc (splitPath path) = some (cur, .list pxs) →
        isDigitStr ((splitPath path).getLast!) = true →
        toIdx ((splitPath path).getLast!) < pxs.length →
        applyOperation doc path (.str "remove_item") value ident =
          (true, "", rewriteAt doc (splitPath path).dropLast (fun c =>
            match c with
            | .list ys => .list (ys.eraseIdx (toIdx ((splitPath path).getLast!)))
            | v => v))) := by
  constructor
  · intro pkvs xs hres
    simp only [applyOperation, hres, removeMatchingScan_eq]
  · intro cur pxs hres hdig hidx
    simp only [applyOperation, hres, hdig]
    simp only [if_pos hidx]

/-- Witness for C4's amended theorem at the fixture document. -/
theorem remove_item_spec_witness :
    getNestedValue (Value.dict [("l", .list [.num ⟨1, 1⟩, .num ⟨2, 1⟩, .num ⟨1, 1⟩])]) (splitPath "l")
      = some (.list [.num ⟨1, 1⟩, .num ⟨2, 1⟩, .num ⟨1, 1⟩],
              .dict [("l", .list [.num ⟨1, 1⟩, .num ⟨2, 1⟩, .num ⟨1, 1⟩])])
    ∧ applyOperation (Value.dict [("l", .list [.num ⟨1, 1⟩, .num ⟨2, 1⟩, .num ⟨1, 1⟩])])
        "l" (.str "remove_item") (.num ⟨1, 1⟩) .null =
        (if ([Value.num ⟨1, 1⟩, .num ⟨2, 1⟩, .num ⟨1, 1⟩].any
              (removeItemMatches .null (.num ⟨1, 1⟩))) then
          (true, "", rewriteAt (Value.dict [("l", .list [.num ⟨1, 1⟩, .num ⟨2, 1⟩, .num ⟨1, 1⟩])])
            (splitPath "l")
            (fun _ => .list ([Value.num ⟨1, 1⟩, .num ⟨2, 1⟩, .num ⟨1, 1⟩].filter
              (fun it => !(removeItemMatches .null (.num ⟨1, 1⟩) it)))))
         else (false, "Item not found for remove_item using value/identifier.",
               Value.dict [("l", .list [.num ⟨1, 1⟩, .num ⟨2, 1⟩, .num ⟨1, 1⟩])])) :=
  ⟨rfl, (remove_item_spec (Value.dict [("l", .list [.num ⟨1, 1⟩, .num ⟨2, 1⟩, .num ⟨1, 1⟩])])
      "l" (.num ⟨1, 1⟩) .null).1
    [("l", .list [.num ⟨1, 1⟩, .num ⟨2, 1⟩, .num ⟨1, 1⟩])]
    [.num ⟨1, 1⟩, .num ⟨2, 1⟩, .num ⟨1, 1⟩] rfl⟩

/-!
### C6 — `set` and the creation of intermediate containers
-/

theorem splitOnCharAux_ne_nil (sep : Char) : ∀ (acc cs : List Char), splitOnCharAux sep acc cs ≠ [] := by
  intro acc cs
  induction cs generalizing acc with
  | nil => simp [splitOnCharAux]
  | cons c rest ih =>
    simp only [splitOnCharAux]
    by_cases h : c == sep
    · simp [h]
    · simp [h, ih]

theorem setNestedValue_dicts_ok (keys : List String) :
    ∀ (doc : Value) (value : Value), keys ≠ [] →
      (∀ k ∈ keys, isDigitStr k = false) → dictsAlong doc keys = true →
      (setNestedValue doc keys value).1 = true
      ∧ ∃ par, getNestedValue (setNestedValue doc keys value).2 keys = some (value, par) := by
  induction keys with
  | nil => intro doc value hne; exact absurd rfl hne
  | cons hd tl ih =>
    intro doc value _ hnd hda
    match doc with
    | .null | .bool _ | .num _ | .str _ | .list _ => simp [dictsAlong] at hda
    | .dict kvs =>
      match tl, ih with
      | [], _ =>
        refine ⟨rfl, .dict (dictSet hd value kvs), ?_⟩
        simp [setNestedValue, getNestedValue, dictLookup_dictSet_self]
      | next :: rest, ih =>
        have hnd2 : ∀ k ∈ next :: rest, isDigitStr k = false := by
          intro k hk; exact hnd k (List.mem_cons_of_mem hd hk)
        have hndx : isDigitStr next = false := hnd2 next (List.mem_cons_self next rest)
        cases hlk : dictLookup hd kvs with
        | some child =>
          have hda2 : dictsAlong child (next :: rest) = true := by
            simp [dictsAlong, hlk] at hda; exact hda
          obtain ⟨h1, par, h2⟩ := ih child value (by simp) hnd2 hda2
          refine ⟨?_, par, ?_⟩
          · simp [setNestedValue, hlk, h1]
          · simp [setNestedValue, hlk, getNestedValue, dictLookup_dictSet_self, h2]
        | none =>
          have hda2 : dictsAlong (Value.dict []) (next :: rest) = true := by
            simp [dictsAlong, dictLookup]
          obtain ⟨h1, par, h2⟩ := ih (.dict []) value (by simp) hnd2 hda2
          refine ⟨?_, par, ?_⟩
          · simp [setNestedValue, hlk, hndx, h1]
          · simp [setNestedValue, hlk, hndx, getNestedValue, dictLookup_dictSet_self, h2]

/-- C6 counterexample: the `set` over `nations.USA.arr.0` (fixture `cexC6`),
whose missing segment `arr` would need to be a list, does NOT fail: the code
creates `[]` and appends, ending with status `executed` and the value at the
path — against the claim's ``the set fails instead of guessing a
structure``. -/
theorem set_missing_list_segment_counterexample :
    (executePendingRamifications cexC6 "1975-01-31T00:00:00").ramifications.map
        Ramification.status = [some "executed"]
    ∧ (executePendingRamifications cexC6 "1975-01-31T00:00:00").doc
        = .dict [("nations", .dict [("USA", .dict [("internalAffairs",
            .dict [("stability", .num ⟨50, 1⟩)]), ("arr", .list [.num ⟨5, 1⟩])])])]
    ∧ ¬ ((executePendingRamifications cexC6 "1975-01-31T00:00:00").ramifications.map
        Ramification.status = [some "failed"]) := by
  refine ⟨rfl, rfl, ?_⟩
  have h : (executePendingRamifications cexC6 "1975-01-31T00:00:00").ramifications.map
      Ramification.status = [some "executed"] := rfl
  rw [h]
  simp

/-- C6 as amended: a `set` whose path segments are non-digit strings and
whose existing prefix passes only through dicts succeeds, creating missing
dict containers and storing the value (and a due pending Ramification doing
so ends `executed`); when a missing dict key is followed by a digit segment,
an empty LIST is created in the document — the set then succeeds by
appending only when that digit segment is final and denotes index `0`, and
fails otherwise, with the empty list left behind. -/
theorem set_creates_containers_spec :
    (∀ (doc value : Value) (keys : List String), keys ≠ [] →
      (∀ k ∈ keys, isDigitStr k = false) → dictsAlong doc keys = true →
      (setNestedValue doc keys value).1 = true
      ∧ ∃ par, getNestedValue (setNestedValue doc keys value).2 keys = some (value, par))
    ∧ (∀ (kvs : List (String × Value)) (k d : String) (value : Value),
        dictLookup k kvs = none → isDigitStr d = true →
        setNestedValue (.dict kvs) [k, d] value =
          (if toIdx d = 0 then (true, .dict (dictSet k (.list [value]) kvs))
           else (false, .dict (dictSet k (.list []) kvs))))
    ∧ (∀ (kvs : List (String × Value)) (k d k2 : String) (ks : List String) (value : Value),
        dictLookup k kvs = none → isDigitStr d = true →
        setNestedValue (.dict kvs) (k :: d :: k2 :: ks) value =
          (false, .dict (dictSet k (.list []) kvs)))
    ∧ (∀ (st : SimState) (j : Nat) (ram : Ramification) (now et : PyDateTime)
        (path ets : String),
        st.ramifications[j]? = some ram →
        ram.status = some "pending" →
        ram.operation = .str "set" →
        ram.targetPath = .str path →
        path ≠ "" →
        ram.executionTime = some ets →
        fromIsoformat? ets = some et →
        et.ble now = true →
        (∀ k ∈ splitPath path, isDigitStr k = false) →
        dictsAlong st.doc (splitPath path) = true →
        (processIndex now st j).ramifications[j]? = some { ram with status := some "executed" }
        ∧ ∃ par, getNestedValue (processIndex now st j).doc (splitPath path)
            = some (ram.value, par)) := by
  refine ⟨fun doc value keys hne hnd hda => setNestedValue_dicts_ok keys doc value hne hnd hda,
    ?_, ?_, ?_⟩
  · intro kvs k d value hlk hdig
    simp only [setNestedValue, hlk, hdig]
    by_cases h0 : toIdx d = 0
    · simp [h0, setNestedValue, hdig]
    · simp [h0, setNestedValue, hdig, Nat.pos_of_ne_zero h0]
  · intro kvs k d k2 ks value hlk hdig
    simp [setNestedValue, hlk, hdig]
  · intro st j ram now et path ets hram hstatus hop hpath hptruthy het hetp hdue hnd hda
    have hne : splitPath path ≠ [] := by
      simp [splitPath, splitOnCharAux_ne_nil]
    obtain ⟨h1, par, h2⟩ := setNestedValue_dicts_ok (splitPath path) st.doc ram.value hne hnd hda
    have hlt : j < st.ramifications.length := by
      rcases List.getElem?_eq_some.mp hram with ⟨h, _⟩
      exact h
    have happly : applyOperation st.doc path (.str "set") ram.value ram.valueIdentifier
        = (true, "", (setNestedValue st.doc (splitPath path) ram.value).2) := by
      simp [applyOperation, h1]
    have hmain : processIndex now st j
        = setRam { st with doc := (setNestedValue st.doc (splitPath path) ram.value).2 } j
            { ram with status := some "executed" } := by
      simp only [processIndex, hram, hstatus, het, hetp, Option.some_bind, hdue, if_true]
      simp only [hpath, hop, pyTruthy]
      have hp : (path != "") = true := by simp [hptruthy]
      simp [hp, happly]
    refine ⟨?_, par, ?_⟩
    · rw [hmain]; simp [setRam, List.getElem?_set_self hlt]
    · rw [hmain]; simpa [setRam] using h2

/-- Witness for C6's amended theorem at the spec's USSR example path. -/
theorem set_creates_containers_spec_witness :
    (setNestedValue (Value.dict [("nations", .dict [("USSR", .dict [("internalAffairs",
        .dict [("stability", .num ⟨70, 1⟩)])])])])
      (splitPath "nations.USSR.internalAffairs.newFlag") (.bool true)).1 = true
    ∧ ∃ par, getNestedValue (setNestedValue (Value.dict [("nations", .dict [("USSR",
        .dict [("internalAffairs", .dict [("stability", .num ⟨70, 1⟩)])])])])
      (splitPath "nations.USSR.internalAffairs.newFlag") (.bool true)).2
      (splitPath "nations.USSR.internalAffairs.newFlag") = some (.bool true, par) :=
  set_creates_containers_spec.1
    (Value.dict [("nations", .dict [("USSR", .dict [("internalAffairs",
      .dict [("stability", .num ⟨70, 1⟩)])])])])
    (.bool true) (splitPath "nations.USSR.internalAffairs.newFlag")
    (by decide) (by decide) rfl

/-!
### C3 — the merge of pending events
-/

/-- C3 counterexample: merging the pending Conflict event of `cexC3` leaves
`conflicts.activeWars` empty and appends the event to the generic
`globalEvents` log — against the claim's type dispatch, under which this
conflict-shaped event would augment `conflicts.activeWars`. -/
theorem merge_no_type_dispatch_counterexample :
    ((updateJsonSchemas cexC3).map (fun st =>
      match st.gs.doc with
      | .dict kvs => (dictLookup "globalEvents" kvs, dictLookup "conflicts" kvs)
      | _ => (none, none)))
      = some (some (.list [conflictPendingEvent]), some (.dict [("activeWars", .list [])]))
    ∧ ¬ (((updateJsonSchemas cexC3).map (fun st =>
      match st.gs.doc with
      | .dict kvs => dictLookup "conflicts" kvs
      | _ => none))
      = some (some (.dict [("activeWars", .list [conflictPendingEvent])]))) := by
  refine ⟨rfl, ?_⟩
  have h : ((updateJsonSchemas cexC3).map (fun st =>
      match st.gs.doc with
      | .dict kvs => dictLookup "conflicts" kvs
      | _ => none))
      = some (some (.dict [("activeWars", .list [])])) := rfl
  rw [h]
  simp

/-- C3 as amended: the merge performs no dispatch on the event's type
string: every pending event — conflict-shaped, economic-shaped or other —
is appended to `global_state["globalEvents"]`, and no other key of the
document (in particular `conflicts` and the economy log) nor any other part
of the state changes; an empty pending list leaves the state as is. -/
theorem merge_appends_all_to_globalEvents (st st2 : EngineState)
    (h : updateJsonSchemas st = some st2) :
    st2.pendingEvents = st.pendingEvents
    ∧ st2.gs.ramifications = st.gs.ramifications
    ∧ st2.timeStep = st.timeStep
    ∧ ((st.pendingEvents = [] ∧ st2.gs.doc = st.gs.doc)
       ∨ (∃ evs kvs, st.gs.doc = .dict kvs
            ∧ dictLookup "globalEvents" kvs = some (.list evs)
            ∧ st2.gs.doc = .dict (dictSet "globalEvents" (.list (evs ++ st.pendingEvents)) kvs)
            ∧ (∀ k, k ≠ "globalEvents" →
                dictLookup k (dictSet "globalEvents" (.list (evs ++ st.pendingEvents)) kvs)
                  = dictLookup k kvs))) := by
  by_cases hemp : st.pendingEvents.isEmpty
  · simp only [updateJsonSchemas, hemp, if_true, Option.some_inj] at h
    subst h
    exact ⟨rfl, rfl, rfl, .inl ⟨List.isEmpty_iff.mp hemp, rfl⟩⟩
  · simp only [updateJsonSchemas, hemp, Bool.false_eq_true, if_false] at h
    split at h
    · split at h
      · rename_i _item kvs hdoc _aopt evs hlk
        simp only [Option.some_inj] at h
        subst h
        refine ⟨rfl, rfl, rfl, .inr ⟨evs, kvs, hdoc, hlk, rfl, ?_⟩⟩
        intro k hk
        exact dictLookup_dictSet_ne "globalEvents" k _ kvs hk
      · exact absurd h (by simp)
    · exact absurd h (by simp)

/-- Witness for C3's amended theorem at the fixture `cexC3`. -/
theorem merge_appends_all_to_globalEvents_witness :
    (updateJsonSchemas cexC3).map (fun st2 => st2.pendingEvents)
      = some cexC3.pendingEvents := by
  have h : updateJsonSchemas cexC3 = some
      { gs := {
          doc := .dict [
            ("current_date", .str "1975-01-01"),
            ("nations", .dict []),
            ("globalEvents", .list [conflictPendingEvent]),
            ("effects", .list []),
            ("conflicts", .dict [("activeWars", .list [])]),
            ("globalEconomy", .list [])]
          ramifications := [] }
        pendingEvents := [conflictPendingEvent]
        timeStep := ⟨1975, 1, 1, 0, 0, 0⟩ } := rfl
  rw [h]
  simp only [Option.map_some']
  exact congrArg some (merge_appends_all_to_globalEvents cexC3 _ h).1

/-!
### C9 — the response-payload extraction
-/

/-- C9 counterexample: on the unfenced response `cexC9` (15 characters of
plain JSON), the source's extraction returns the mangled fixed-offset slice,
not the text enclosed by the first and last brace that the claim
describes. -/
theorem payload_fixed_offset_counterexample :
    extractPayload cexC9 = "fgh\x22:"
    ∧ specExtractPayloadChars cexC9.toList = cexC9.toList
    ∧ ¬ (extractPayload cexC9 = String.mk (specExtractPayloadChars cexC9.toList)) := by
  refine ⟨rfl, rfl, ?_⟩
  intro h
  rw [show specExtractPayloadChars cexC9.toList = cexC9.toList from rfl] at h
  rw [show extractPayload cexC9 = "fgh\x22:" from rfl] at h
  simp [cexC9] at h

/-- C9 as amended: the payload is extracted by a fixed-offset slice, not by
locating braces — when the raw response is longer than ten characters, the
first seven and last three characters of the stripped text are removed.
Exactly a response fenced as seven characters of opening fence plus newline
and newline plus three closing backticks therefore yields the enclosed JSON
text (with its surrounding newlines, which the JSON parser tolerates). -/
theorem payload_extraction_spec (b : List Char) :
    extractPayloadChars ("```json\n".toList ++ (b ++ "\n```".toList))
      = '\n' :: (b ++ ['\n']) := by
  show extractPayloadChars ('`' :: '`' :: '`' :: 'j' :: 's' :: 'o' :: 'n' :: '\n' ::
    (b ++ ['\n', '`', '`', '`'])) = '\n' :: (b ++ ['\n'])
  have hlen : ('`' :: '`' :: '`' :: 'j' :: 's' :: 'o' :: 'n' :: '\n' ::
      (b ++ ['\n', '`', '`', '`'])).length = b.length + 12 := by
    simp
  have hstrip : pyStripChars ('`' :: '`' :: '`' :: 'j' :: 's' :: 'o' :: 'n' :: '\n' ::
      (b ++ ['\n', '`', '`', '`'])) = '`' :: '`' :: '`' :: 'j' :: 's' :: 'o' :: 'n' :: '\n' ::
      (b ++ ['\n', '`', '`', '`']) := by
    simp only [pyStripChars]
    rw [List.dropWhile_cons_of_neg (by decide)]
    rw [show ('`' :: '`' :: '`' :: 'j' :: 's' :: 'o' :: 'n' :: '\n' ::
      (b ++ ['\n', '`', '`', '`'])).reverse
      = '`' :: '`' :: '`' :: '\n' :: (b.reverse ++ ['\n', 'n', 'o', 's', 'j', '`', '`', '`'])
      from by simp]
    rw [List.dropWhile_cons_of_neg (by decide)]
    simp
  simp only [extractPayloadChars, hstrip, hlen]
  rw [if_pos (by omega)]
  simp only [List.drop_succ_cons, List.drop_zero]
  have harith : b.length + 12 - 3 - 7 = b.length + 2 := by omega
  rw [harith]
  rw [show b.length + 2 = (b.length + 1) + 1 from rfl]
  rw [List.take_cons]
  congr 1
  rw [List.take_append_eq_append_take]
  simp
  omega

/-!
### C1 — at-most-once execution
-/

theorem checkConflictsGo_spec (uuidGen : Nat → String) (ts : PyDateTime) :
    ∀ (wars : List Value) (ctr : Nat) (evs : List Value) (ctr2 : Nat),
    checkConflictsGo uuidGen ts ctr wars = some (evs, ctr2) →
    ctr2 = ctr + evs.length
    ∧ evs.length = (wars.filter warTriggeredB).length
    ∧ ∀ i ev, evs[i]? = some ev →
        ∃ wkvs, (wars.filter warTriggeredB)[i]? = some (.dict wkvs)
          ∧ ∃ sa sb, sideLists wkvs = some (sa, sb)
            ∧ ev = mkConflictEvent (uuidGen (ctr + i)) ts wkvs (sa ++ sb) := by
  intro wars
  induction wars with
  | nil =>
    intro ctr evs ctr2 h
    simp only [checkConflictsGo, Option.some_inj, Prod.mk.injEq] at h
    obtain ⟨h1, h2⟩ := h
    subst h1
    subst h2
    simp
  | cons war rest ih =>
    intro ctr evs ctr2 h
    match war, h with
    | .dict wkvs, h =>
      simp only [checkConflictsGo] at h
      rcases htrig : warTriggered wkvs with _ | trig
      · rw [htrig] at h
        simp at h
      · rw [htrig] at h
        simp only [Option.bind_eq_bind, Option.some_bind] at h
        have htb : warTriggeredB (.dict wkvs) = trig := by
          simp [warTriggeredB, htrig]
        cases trig with
        | false =>
          simp only [Bool.false_eq_true, if_false] at h
          obtain ⟨h1, h2, h3⟩ := ih ctr evs ctr2 h
          refine ⟨h1, ?_, ?_⟩
          · rw [List.filter_cons, htb]
            simpa using h2
          · intro i ev hev
            obtain ⟨wk, hwk, rest2⟩ := h3 i ev hev
            refine ⟨wk, ?_, rest2⟩
            rw [List.filter_cons, htb]
            simpa using hwk
        | true =>
          simp only [if_true] at h
          rcases hsides : sideLists wkvs with _ | sides
          · rw [hsides] at h
            simp at h
          · rw [hsides] at h
            simp only [Option.bind_eq_bind, Option.some_bind, Option.bind_eq_some] at h
            obtain ⟨r, hgo, hpure⟩ := h
            simp only [pure, Option.some_inj, Prod.mk.injEq] at hpure
            obtain ⟨hevs, hctr⟩ := hpure
            subst hevs
            subst hctr
            obtain ⟨h1, h2, h3⟩ := ih (ctr + 1) r.1 r.2 (by rw [← hgo])
            refine ⟨by simp [h1]; omega, ?_, ?_⟩
            · rw [List.filter_cons, htb]
              simp [h2]
            · intro i ev hev
              cases i with
              | zero =>
                simp only [List.getElem?_cons_zero, Option.some_inj] at hev
                refine ⟨wkvs, ?_, sides.1, sides.2, hsides, ?_⟩
                · rw [List.filter_cons, htb]
                  simp
                · rw [← hev]
                  simp
              | succ i2 =>
                simp only [List.getElem?_cons_succ] at hev
                obtain ⟨wk, hwk, sa, sb, hsl, hmk⟩ := h3 i2 ev hev
                refine ⟨wk, ?_, sa, sb, hsl, ?_⟩
                · rw [List.filter_cons, htb]
                  simpa using hwk
                · rw [hmk]
                  have harith : ctr + 1 + i2 = ctr + (i2 + 1) := by omega
                  rw [harith]

/-- C7: a successful `check_conflicts` scan leaves the State Document (and
the rest of the shared state) untouched and appends to the in-memory pending
list exactly one new Global Event per `activeWars` entry satisfying the
escalation predicate — status `Ongoing` and numeric military casualties
above 10000, with a missing or non-numeric military-casualty reading
coerced to `0` and hence skipped, not raised (`warTriggeredB`).  Each new
event is a `Conflict`-typed dict whose `eventId` is drawn fresh from the
uuid supply and whose `participatingNations` is the war's `sideA ++ sideB`. -/
theorem check_conflicts_spec (uuidGen : Nat → String) (st st2 : EngineState)
    (wars : List Value)
    (hwars : activeWarsOf st.gs.doc = some wars)
    (h : checkConflicts uuidGen st = some st2) :
    st2.gs = st.gs
    ∧ st2.timeStep = st.timeStep
    ∧ st2.aiCtr = st.aiCtr
    ∧ ∃ newEvs, st2.pendingEvents = st.pendingEvents ++ newEvs
        ∧ st2.uuidCtr = st.uuidCtr + newEvs.length
        ∧ newEvs.length = (wars.filter warTriggeredB).length
        ∧ ∀ i ev, newEvs[i]? = some ev →
            ∃ wkvs, (wars.filter warTriggeredB)[i]? = some (.dict wkvs)
              ∧ ∃ sa sb, sideLists wkvs = some (sa, sb)
                ∧ ev = mkConflictEvent (uuidGen (st.uuidCtr + i)) st.timeStep wkvs (sa ++ sb)
                ∧ ∃ ekvs, ev = .dict ekvs
                  ∧ dictLookup "eventType" ekvs = some (.str "Conflict")
                  ∧ dictLookup "eventId" ekvs = some (.str (uuidGen (st.uuidCtr + i)))
                  ∧ dictLookup "participatingNations" ekvs = some (.list (sa ++ sb)) := by
  simp only [checkConflicts, hwars, Option.bind_eq_bind, Option.some_bind,
    Option.bind_eq_some] at h
  obtain ⟨r, hgo, hpure⟩ := h
  simp only [pure, Option.some_inj] at hpure
  subst hpure
  obtain ⟨h1, h2, h3⟩ := checkConflictsGo_spec uuidGen st.timeStep wars st.uuidCtr r.1 r.2
    (by rw [← hgo])
  refine ⟨rfl, rfl, rfl, r.1, rfl, by rw [h1], h2, ?_⟩
  intro i ev hev
  obtain ⟨wkvs, hwk, sa, sb, hsl, hmk⟩ := h3 i ev hev
  refine ⟨wkvs, hwk, sa, sb, hsl, hmk, ?_⟩
  rw [hmk]
  exact ⟨_, rfl, rfl, rfl, rfl⟩

/-- Witness for C7 at the fixture `exC7`: one escalating war, one war whose
military-casualty field is the string `"unknown"` (skipped, no exception):
exactly one event is appended. -/
theorem check_conflicts_spec_witness :
    activeWarsOf exC7.gs.doc = some [warHot, warMalformed]
    ∧ ((checkConflicts uuidSeq exC7).map (fun st2 => st2.pendingEvents.length))
        = some (([warHot, warMalformed].filter warTriggeredB).length) := by
  have h : checkConflicts uuidSeq exC7 = some
      { exC7 with
        pendingEvents := [mkConflictEvent (uuidSeq 0) exC7.timeStep
          [("conflictName", .str "Great War"), ("status", .str "Ongoing"),
           ("casualties", .dict [("military", .num ⟨12000, 1⟩)]),
           ("belligerents", .dict [("sideA", .list [.str "USA"]),
                                   ("sideB", .list [.str "USSR"])]),
           ("eventId", .str "war-ev-1")]
          [.str "USA", .str "USSR"]]
        uuidCtr := 1 } := rfl
  refine ⟨rfl, ?_⟩
  obtain ⟨newEvs, hpe, hctr2, hlen, _⟩ :=
    (check_conflicts_spec uuidSeq exC7 _ [warHot, warMalformed] rfl h).2.2.2
  rw [h, Option.map_some', hpe]
  simp [hlen]
  rfl

/-- The `effects` read of a just-written `effects` list. -/
theorem effectsListOf_setEffectsList (doc : Value) (es l : List Value)
    (h : effectsListOf doc = some es) :
    effectsListOf (setEffectsList doc l) = some l := by
  unfold effectsListOf at h ⊢
  unfold setEffectsList docSetKey
  split at h
  · rename_i kvs
    simp [dictLookup_dictSet_self]
  · exact absurd h (by simp)

/-- The first-match scan walks past every record whose key mismatches. -/
theorem replaceFirstByKey_fresh (key : String) (idVal newRec : Value)
    (es : List Value)
    (hfresh : ∀ e ∈ es, ∃ ekvs v, e = Value.dict ekvs ∧
        dictLookup key ekvs = some v ∧ pyEq v idVal = false) :
    ∀ tail res0, replaceFirstByKey key idVal newRec tail = some res0 →
      replaceFirstByKey key idVal newRec (es ++ tail) = some (es ++ res0) := by
  induction es with
  | nil => intro tail res0 h; simpa using h
  | cons e rest ih =>
    intro tail res0 h
    obtain ⟨ekvs, v, he, hlk, hne⟩ := hfresh e (by simp)
    have hrest : ∀ e2 ∈ rest, ∃ ekvs v, e2 = Value.dict ekvs ∧
        dictLookup key ekvs = some v ∧ pyEq v idVal = false := by
      intro e2 he2; exact hfresh e2 (by simp [he2])
    subst he
    simp only [List.cons_append, replaceFirstByKey, hlk, hne, Bool.false_eq_true,
      if_false, List.append_eq]
    rw [ih hrest tail res0 h]
    simp

/-- Whenever `_create_ramification_with_ai` yields a record, that record is
`pending`, stamped with the current simulated time, and carries the supplied
fresh id. -/
theorem assembleAiRamification_some (aiOut : Option (List (String × Value)))
    (nationId : Value) (effectId ramId : String) (ts : PyDateTime) (ram : Ramification)
    (h : assembleAiRamification aiOut nationId effectId ramId ts = some ram) :
    ram.status = some "pending" ∧ ram.executionTime = some ts.fmtIso ∧
      ram.ramificationId = ramId := by
  unfold assembleAiRamification at h
  split at h
  · split at h
    · injection h with h2
      subst h2
      exact ⟨rfl, rfl, rfl⟩
    · exact absurd h (by simp)
  · exact absurd h (by simp)

/-- On a truthy dict hint, `_create_effect` returns the Effect record. -/
theorem createEffect_dict_eq (effectId : String) (nationId : Value) (impactId : String)
    (hkvs : List (String × Value)) (ts : PyDateTime)
    (htruthy : pyTruthy (.dict hkvs) = true) :
    createEffect effectId nationId impactId (.dict hkvs) ts =
      some (some (.dict (effectKvs effectId nationId impactId hkvs ts))) := by
  simp [createEffect, effectKvs, htruthy]

/-- C8: during consequence synthesis, for each truthy general-ramification
hint processed without exception over fresh effect ids: when the LLM-backed
ramification generation yields no valid \x7btargetPath, operation, value\x7d
object, no Ramification is appended to the global collection and the
appended Effect keeps `ramificationIds = []`, while the hint still completes;
when it yields one, exactly that Ramification is appended, stored with
status `pending` and `executionTime` equal to the current simulated time,
and the Effect records its id. -/
theorem consequence_synthesis_effect_spec
    (oracle : AiOracle) (uuidGen : Nat → String) (nationIdVal : Value)
    (impactId : String) (st : EngineState) (accIds : List Value)
    (hkvs : List (String × Value)) (es : List Value) (res : EngineState × List Value)
    (htruthy : pyTruthy (.dict hkvs) = true)
    (hes : effectsListOf st.gs.doc = some es)
    (hfresh : ∀ e ∈ es, ∃ ekvs v, e = Value.dict ekvs ∧
        dictLookup "effectId" ekvs = some v ∧ pyEq v (.str (uuidGen st.uuidCtr)) = false)
    (h : processHint oracle uuidGen nationIdVal impactId (st, accIds) (.dict hkvs) = some res) :
    (assembleAiRamification (if st.ramSchemaLoaded then oracle st.aiCtr else none)
        nationIdVal (uuidGen st.uuidCtr) (uuidGen (st.uuidCtr + 1)) st.timeStep = none →
      res.1.gs.ramifications = st.gs.ramifications ∧
      ∃ ekvs2, effectsListOf res.1.gs.doc = some (es ++ [Value.dict ekvs2]) ∧
        dictLookup "effectId" ekvs2 = some (.str (uuidGen st.uuidCtr)) ∧
        dictLookup "ramificationIds" ekvs2 = some (.list []))
    ∧ (∀ ram, assembleAiRamification (if st.ramSchemaLoaded then oracle st.aiCtr else none)
        nationIdVal (uuidGen st.uuidCtr) (uuidGen (st.uuidCtr + 1)) st.timeStep = some ram →
      res.1.gs.ramifications = st.gs.ramifications ++ [ram] ∧
      ram.status = some "pending" ∧
      ram.executionTime = some st.timeStep.fmtIso ∧
      ∃ ekvs2, effectsListOf res.1.gs.doc = some (es ++ [Value.dict ekvs2]) ∧
        dictLookup "effectId" ekvs2 = some (.str (uuidGen st.uuidCtr)) ∧
        dictLookup "ramificationIds" ekvs2 = some (.list [.str ram.ramificationId])) := by
  unfold processHint at h
  by_cases hsl : st.ramSchemaLoaded = true
  · simp only [htruthy, Bool.not_true, Bool.false_eq_true, if_false,
      Option.bind_eq_bind, hes, hsl, if_true] at h ⊢
    rw [createEffect_dict_eq _ _ _ _ _ htruthy] at h
    simp only [Option.some_bind, hes] at h
    cases hram : assembleAiRamification (oracle st.aiCtr) nationIdVal (uuidGen st.uuidCtr)
        (uuidGen (st.uuidCtr + 1)) st.timeStep with
    | none =>
      simp only [hram, Option.isSome_none, Bool.false_eq_true, if_false] at h
      rw [effectsListOf_setEffectsList st.gs.doc es _ hes] at h
      simp only [Option.some_bind] at h
      rw [setLast_append] at h
      have hlkU : dictLookup "effectId" (dictSet "ramificationIds" (Value.list [])
          (effectKvs (uuidGen st.uuidCtr) nationIdVal impactId hkvs st.timeStep)) =
          some (Value.str (uuidGen st.uuidCtr)) := by
        simp [effectKvs, dictSet, dictLookup]
      have htail : replaceFirstByKey "effectId" (Value.str (uuidGen st.uuidCtr))
          (Value.dict (dictSet "ramificationIds" (Value.list [])
            (effectKvs (uuidGen st.uuidCtr) nationIdVal impactId hkvs st.timeStep)))
          [Value.dict (dictSet "ramificationIds" (Value.list [])
            (effectKvs (uuidGen st.uuidCtr) nationIdVal impactId hkvs st.timeStep))] =
          some [Value.dict (dictSet "ramificationIds" (Value.list [])
            (effectKvs (uuidGen st.uuidCtr) nationIdVal impactId hkvs st.timeStep))] := by
        simp [replaceFirstByKey, hlkU, pyEq_str]
      rw [replaceFirstByKey_fresh "effectId" (Value.str (uuidGen st.uuidCtr)) _ es hfresh
        _ _ htail] at h
      simp only [Option.some_bind, pure] at h
      injection h with h2
      subst h2
      refine ⟨fun _ => ⟨rfl, dictSet "ramificationIds" (Value.list [])
        (effectKvs (uuidGen st.uuidCtr) nationIdVal impactId hkvs st.timeStep), ?_, hlkU,
        dictLookup_dictSet_self _ _ _⟩, fun ram hram2 => by cases hram2⟩
      exact effectsListOf_setEffectsList _ _ _
        (effectsListOf_setEffectsList st.gs.doc es _ hes)
    | some ram =>
      simp only [hram, Option.isSome_some, if_true] at h
      rw [effectsListOf_setEffectsList st.gs.doc es _ hes] at h
      simp only [Option.some_bind] at h
      rw [setLast_append] at h
      have hlkU : dictLookup "effectId" (dictSet "ramificationIds"
          (Value.list [Value.str ram.ramificationId])
          (effectKvs (uuidGen st.uuidCtr) nationIdVal impactId hkvs st.timeStep)) =
          some (Value.str (uuidGen st.uuidCtr)) := by
        simp [effectKvs, dictSet, dictLookup]
      have htail : replaceFirstByKey "effectId" (Value.str (uuidGen st.uuidCtr))
          (Value.dict (dictSet "ramificationIds" (Value.list [Value.str ram.ramificationId])
            (effectKvs (uuidGen st.uuidCtr) nationIdVal impactId hkvs st.timeStep)))
          [Value.dict (dictSet "ramificationIds" (Value.list [Value.str ram.ramificationId])
            (effectKvs (uuidGen st.uuidCtr) nationIdVal impactId hkvs st.timeStep))] =
          some [Value.dict (dictSet "ramificationIds" (Value.list [Value.str ram.ramificationId])
            (effectKvs (uuidGen st.uuidCtr) nationIdVal impactId hkvs st.timeStep))] := by
        simp [replaceFirstByKey, hlkU, pyEq_str]
      rw [replaceFirstByKey_fresh "effectId" (Value.str (uuidGen st.uuidCtr)) _ es hfresh
        _ _ htail] at h
      simp only [Option.some_bind, pure] at h
      injection h with h2
      subst h2
      obtain ⟨hstat, hexec, hrid⟩ := assembleAiRamification_some _ _ _ _ _ _ hram
      constructor
      · intro hcontra
        cases hcontra
      intro ram2 hr2
      injection hr2 with he
      subst he
      refine ⟨rfl, hstat, hexec, dictSet "ramificationIds"
        (Value.list [Value.str ram.ramificationId])
        (effectKvs (uuidGen st.uuidCtr) nationIdVal impactId hkvs st.timeStep), ?_, hlkU,
        dictLookup_dictSet_self _ _ _⟩
      exact effectsListOf_setEffectsList _ _ _
        (effectsListOf_setEffectsList st.gs.doc es _ hes)
  · simp only [htruthy, Bool.not_true, Bool.false_eq_true, if_false,
      Option.bind_eq_bind, hes, hsl] at h ⊢
    rw [createEffect_dict_eq _ _ _ _ _ htruthy] at h
    simp only [Option.some_bind, hes, assembleAiRamification, Option.isSome_none,
      Bool.false_eq_true, if_false] at h
    rw [effectsListOf_setEffectsList st.gs.doc es _ hes] at h
    simp only [Option.some_bind] at h
    rw [setLast_append] at h
    have hlkU : dictLookup "effectId" (dictSet "ramificationIds" (Value.list [])
        (effectKvs (uuidGen st.uuidCtr) nationIdVal impactId hkvs st.timeStep)) =
        some (Value.str (uuidGen st.uuidCtr)) := by
      simp [effectKvs, dictSet, dictLookup]
    have htail : replaceFirstByKey "effectId" (Value.str (uuidGen st.uuidCtr))
        (Value.dict (dictSet "ramificationIds" (Value.list [])
          (effectKvs (uuidGen st.uuidCtr) nationIdVal impactId hkvs st.timeStep)))
        [Value.dict (dictSet "ramificationIds" (Value.list [])
          (effectKvs (uuidGen st.uuidCtr) nationIdVal impactId hkvs st.timeStep))] =
        some [Value.dict (dictSet "ramificationIds" (Value.list [])
          (effectKvs (uuidGen st.uuidCtr) nationIdVal impactId hkvs st.timeStep))] := by
      simp [replaceFirstByKey, hlkU, pyEq_str]
    rw [replaceFirstByKey_fresh "effectId" (Value.str (uuidGen st.uuidCtr)) _ es hfresh
      _ _ htail] at h
    simp only [Option.some_bind, pure] at h
    injection h with h2
    subst h2
    refine ⟨fun _ => ⟨rfl, dictSet "ramificationIds" (Value.list [])
      (effectKvs (uuidGen st.uuidCtr) nationIdVal impactId hkvs st.timeStep), ?_, hlkU,
      dictLookup_dictSet_self _ _ _⟩, fun ram hram2 => by simp [assembleAiRamification] at hram2⟩
    exact effectsListOf_setEffectsList _ _ _
      (effectsListOf_setEffectsList st.gs.doc es _ hes)

/-- Witness for C8 at the fixture `exC8` with hint `hintC8` under an oracle
whose output is valid: the success arm is exercised concretely. -/
theorem consequence_synthesis_effect_spec_witness :
    processHint okOracle uuidSeq (Value.str "USA") "impact-0" (exC8, []) hintC8 = some resC8
    ∧ ((assembleAiRamification (if exC8.ramSchemaLoaded then okOracle exC8.aiCtr else none)
        (Value.str "USA") (uuidSeq exC8.uuidCtr) (uuidSeq (exC8.uuidCtr + 1)) exC8.timeStep = none →
      resC8.1.gs.ramifications = exC8.gs.ramifications ∧
      ∃ ekvs2, effectsListOf resC8.1.gs.doc = some ([] ++ [Value.dict ekvs2]) ∧
        dictLookup "effectId" ekvs2 = some (.str (uuidSeq exC8.uuidCtr)) ∧
        dictLookup "ramificationIds" ekvs2 = some (.list []))
    ∧ (∀ ram, assembleAiRamification (if exC8.ramSchemaLoaded then okOracle exC8.aiCtr else none)
        (Value.str "USA") (uuidSeq exC8.uuidCtr) (uuidSeq (exC8.uuidCtr + 1)) exC8.timeStep = some ram →
      resC8.1.gs.ramifications = exC8.gs.ramifications ++ [ram] ∧
      ram.status = some "pending" ∧
      ram.executionTime = some exC8.timeStep.fmtIso ∧
      ∃ ekvs2, effectsListOf resC8.1.gs.doc = some ([] ++ [Value.dict ekvs2]) ∧
        dictLookup "effectId" ekvs2 = some (.str (uuidSeq exC8.uuidCtr)) ∧
        dictLookup "ramificationIds" ekvs2 = some (.list [.str ram.ramificationId]))) :=
  ⟨rfl, consequence_synthesis_effect_spec okOracle uuidSeq (Value.str "USA") "impact-0" exC8 []
    [("ramificationType", .str "Military"), ("severity", .str "High"),
     ("affectedParties", .list [.str "USA"]),
     ("description", .str "Conflict intensity increases."),
     ("timeframe", .str "Short-Term")] [] resC8 rfl rfl (by simp) rfl⟩

/-- The conflict scan leaves the State Document and the simulated clock
untouched. -/
theorem checkConflicts_inv (uuidGen : Nat → String) (st st2 : EngineState)
    (h : checkConflicts uuidGen st = some st2) :
    st2.gs = st.gs ∧ st2.timeStep = st.timeStep := by
  unfold checkConflicts at h
  simp only [Option.bind_eq_bind, Option.bind_eq_some, pure] at h
  obtain ⟨wars, hw, r, hr, h⟩ := h
  injection h with h2
  subst h2
  exact ⟨rfl, rfl⟩

/-- The economic scan leaves the State Document and the simulated clock
untouched. -/
theorem checkEconomicEvents_inv (uuidGen : Nat → String) (st st2 : EngineState)
    (h : checkEconomicEvents uuidGen st = some st2) :
    st2.gs = st.gs ∧ st2.timeStep = st.timeStep := by
  unfold checkEconomicEvents at h
  simp only [Option.bind_eq_bind] at h
  split at h
  · split at h
    · simp only [Option.some_bind, Option.bind_eq_some, pure] at h
      obtain ⟨r, hr, h⟩ := h
      injection h with h2
      subst h2
      exact ⟨rfl, rfl⟩
    · simp only [Option.some_bind, Option.bind_eq_some, pure] at h
      obtain ⟨r, hr, h⟩ := h
      injection h with h2
      subst h2
      exact ⟨rfl, rfl⟩
    · simp at h
  · simp at h

/-- `evaluate_conditions` leaves the State Document and the clock
untouched. -/
theorem evaluateConditions_inv (uuidGen : Nat → String) (st st2 : EngineState)
    (h : evaluateConditions uuidGen st = some st2) :
    st2.gs = st.gs ∧ st2.timeStep = st.timeStep := by
  unfold evaluateConditions at h
  simp only [Option.bind_eq_bind, Option.bind_eq_some] at h
  obtain ⟨st1, h1, h2⟩ := h
  obtain ⟨hg1, ht1⟩ := checkConflicts_inv uuidGen st st1 h1
  obtain ⟨hg2, ht2⟩ := checkEconomicEvents_inv uuidGen st1 st2 h2
  exact ⟨hg2.trans hg1, ht2.trans ht1⟩

/-- The user override only filters the pending list. -/
theorem processUserInput_inv (st st2 : EngineState) (input : String)
    (h : processUserInput st input = some st2) :
    st2.gs = st.gs ∧ st2.timeStep = st.timeStep := by
  unfold processUserInput at h
  split at h
  · simp only [Option.bind_eq_bind, Option.bind_eq_some, pure] at h
    obtain ⟨kept, hk, h⟩ := h
    injection h with h2
    subst h2
    exact ⟨rfl, rfl⟩
  · injection h with h2
    subst h2
    exact ⟨rfl, rfl⟩

/-- The merge keeps the clock, the dict-ness of the document, and the
ramification collection. -/
theorem updateJsonSchemas_inv (st st2 : EngineState)
    (h : updateJsonSchemas st = some st2) :
    st2.timeStep = st.timeStep ∧
      (∀ kvs, st.gs.doc = Value.dict kvs → ∃ kvs2, st2.gs.doc = Value.dict kvs2) ∧
      st2.gs.ramifications = st.gs.ramifications := by
  unfold updateJsonSchemas at h
  split at h
  · injection h with h2
    subst h2
    exact ⟨rfl, fun kvs hk => ⟨kvs, hk⟩, rfl⟩
  · split at h
    · split at h
      · injection h with h2
        subst h2
        exact ⟨rfl, fun kvs hk => ⟨_, rfl⟩, rfl⟩
      · exact absurd h (by simp)
    · exact absurd h (by simp)

/-- One synthesis hint never moves the clock and keeps the document a
dict. -/
theorem processHint_inv (oracle : AiOracle) (uuidGen : Nat → String) (nid : Value)
    (iid : String) (acc res : EngineState × List Value) (hint : Value)
    (h : processHint oracle uuidGen nid iid acc hint = some res) :
    res.1.timeStep = acc.1.timeStep ∧
      (∀ kvs, acc.1.gs.doc = Value.dict kvs → ∃ kvs2, res.1.gs.doc = Value.dict kvs2) := by
  unfold processHint at h
  split at h
  · injection h with h2
    subst h2
    exact ⟨rfl, fun kvs hk => ⟨kvs, hk⟩⟩
  · simp only [Option.bind_eq_bind, Option.bind_eq_some] at h
    obtain ⟨effOpt, hce, h⟩ := h
    cases effOpt with
    | none =>
      simp only [pure] at h
      injection h with h2
      subst h2
      exact ⟨rfl, fun kvs hk => ⟨kvs, hk⟩⟩
    | some effect =>
      simp only [Option.bind_eq_some] at h
      obtain ⟨es, hes, h⟩ := h
      by_cases hsl : acc.1.ramSchemaLoaded = true
      · simp only [hsl, if_true] at h
        cases hram : assembleAiRamification (oracle acc.1.aiCtr) nid (uuidGen acc.1.uuidCtr)
            (uuidGen (acc.1.uuidCtr + 1)) acc.1.timeStep with
        | none =>
          simp only [hram, Option.isSome_none, Bool.false_eq_true, if_false,
            Option.bind_eq_some, pure] at h
          obtain ⟨es2, hes2, es4, hrfk, h⟩ := h
          injection h with h2
          subst h2
          refine ⟨rfl, fun kvs hk => ?_⟩
          rw [hk] at *
          exact ⟨_, rfl⟩
        | some ram =>
          simp only [hram, Option.isSome_some, if_true, Option.bind_eq_some, pure] at h
          obtain ⟨es2, hes2, es4, hrfk, h⟩ := h
          injection h with h2
          subst h2
          refine ⟨rfl, fun kvs hk => ?_⟩
          rw [hk] at *
          exact ⟨_, rfl⟩
      · simp only [hsl, if_false, assembleAiRamification, Option.isSome_none,
          Bool.false_eq_true, Option.bind_eq_some, pure] at h
        obtain ⟨es2, hes2, es4, hrfk, h⟩ := h
        injection h with h2
        subst h2
        refine ⟨rfl, fun kvs hk => ?_⟩
        rw [hk] at *
        exact ⟨_, rfl⟩

/-- Writing a nation record keeps the document a dict. -/
theorem setNationRecord_dict (kvs : List (String × Value)) (nkey : String)
    (rec : List (String × Value)) :
    ∃ kvs2, setNationRecord (Value.dict kvs) nkey rec = Value.dict kvs2 := by
  unfold setNationRecord
  dsimp only
  rcases hlk : dictLookup "nations" kvs with _ | v
  · exact ⟨kvs, rfl⟩
  · cases v <;> exact ⟨_, rfl⟩

/-- The per-nation write-back never moves the clock and keeps the document
a dict. -/
theorem processNationWriteBack_inv (nkey impactId : String) (impact : Value)
    (r : EngineState × List Value) (st2 : EngineState)
    (hdict : ∃ kvs, r.1.gs.doc = Value.dict kvs)
    (h : processNationWriteBack nkey impactId impact r = some st2) :
    st2.timeStep = r.1.timeStep ∧ ∃ kvs2, st2.gs.doc = Value.dict kvs2 := by
  unfold processNationWriteBack at h
  simp only [Option.bind_eq_bind, Option.bind_eq_some] at h
  obtain ⟨rec1, hrec1, h⟩ := h
  split at h
  · simp only [Option.some_bind, Option.bind_eq_some, pure] at h
    obtain ⟨impacts3, hrfk, h⟩ := h
    injection h with h2
    subst h2
    refine ⟨rfl, ?_⟩
    obtain ⟨kvs, hk⟩ := hdict
    show ∃ kvs2, setNationRecord r.1.gs.doc nkey _ = Value.dict kvs2
    rw [hk]
    exact setNationRecord_dict _ _ _
  · simp only [Option.some_bind, Option.bind_eq_some, pure] at h
    obtain ⟨impacts3, hrfk, h⟩ := h
    injection h with h2
    subst h2
    refine ⟨rfl, ?_⟩
    obtain ⟨kvs, hk⟩ := hdict
    show ∃ kvs2, setNationRecord r.1.gs.doc nkey _ = Value.dict kvs2
    rw [hk]
    exact setNationRecord_dict _ _ _
  · simp at h

/-- The hint fold followed by the write-back never moves the clock and
keeps the document a dict. -/
theorem foldThenWriteBack_inv (oracle : AiOracle) (uuidGen : Nat → String)
    (nid : Value) (impactId nkey : String) (impact : Value) (hints : List Value)
    (base : EngineState × List Value) (st2 : EngineState) (t : PyDateTime)
    (ht : base.1.timeStep = t) (hd : ∃ kvs, base.1.gs.doc = Value.dict kvs)
    (h : (hints.foldlM (processHint oracle uuidGen nid impactId) base).bind
        (processNationWriteBack nkey impactId impact) = some st2) :
    st2.timeStep = t ∧ ∃ kvs2, st2.gs.doc = Value.dict kvs2 := by
  rw [Option.bind_eq_some] at h
  obtain ⟨r, hfold, hwb⟩ := h
  have hP : r.1.timeStep = t ∧ ∃ kvs, r.1.gs.doc = Value.dict kvs := by
    refine foldlM_option_preserve (processHint oracle uuidGen nid impactId)
      (fun p => p.1.timeStep = t ∧ ∃ kvs, p.1.gs.doc = Value.dict kvs)
      ?_ hints base r hfold ⟨ht, hd⟩
    intro s a s2 hps hs
    obtain ⟨ht2, hd2⟩ := processHint_inv _ _ _ _ _ _ _ hps
    obtain ⟨kvs, hk⟩ := hs.2
    exact ⟨ht2.trans hs.1, hd2 kvs hk⟩
  obtain ⟨htr, hdr⟩ := hP
  obtain ⟨ht2, hd2⟩ := processNationWriteBack_inv _ _ _ _ _ hdr hwb
  exact ⟨ht2.trans htr, hd2⟩

/-- One nation of consequence synthesis never moves the clock and keeps
the document a dict. -/
theorem processNation_inv (oracle : AiOracle) (uuidGen : Nat → String) (ev evId : Value)
    (st st2 : EngineState) (nid : Value)
    (hdict : ∃ kvs, st.gs.doc = Value.dict kvs)
    (h : processNation oracle uuidGen ev evId st nid = some st2) :
    st2.timeStep = st.timeStep ∧ ∃ kvs2, st2.gs.doc = Value.dict kvs2 := by
  unfold processNation at h
  split at h
  · injection h with h2
    subst h2
    exact ⟨rfl, hdict⟩
  · rename_i nkey hget
    have fin : ∀ (impactId2 : String) (impact : Value) (hints : List Value)
        (base : EngineState × List Value),
        base.1.timeStep = st.timeStep →
        (∃ kvs, base.1.gs.doc = Value.dict kvs) →
        (hints.foldlM (processHint oracle uuidGen nid impactId2) base).bind
          (processNationWriteBack nkey impactId2 impact) = some st2 →
        st2.timeStep = st.timeStep ∧ ∃ kvs2, st2.gs.doc = Value.dict kvs2 :=
      fun i imp hs b hbt hbd2 hh =>
        foldThenWriteBack_inv oracle uuidGen nid i nkey imp hs b st2 st.timeStep hbt hbd2 hh
    have hbd : ∀ (x : Value) (rc : List (String × Value)),
        ∃ kvs, setNationRecord st.gs.doc nkey (dictSet "nationwideImpacts" x rc) =
          Value.dict kvs := by
      intro x rc
      obtain ⟨kvs, hk⟩ := hdict
      rw [hk]
      exact setNationRecord_dict _ _ _
    have fin2 : ∀ (impactId2 : String) (impact : Value)
        (base : EngineState × List Value),
        base.1.timeStep = st.timeStep →
        (∃ kvs, base.1.gs.doc = Value.dict kvs) →
        processNationWriteBack nkey impactId2 impact base = some st2 →
        st2.timeStep = st.timeStep ∧ ∃ kvs2, st2.gs.doc = Value.dict kvs2 := by
      intro i imp b hbt hbd2 hh
      obtain ⟨ht2, hd2⟩ := processNationWriteBack_inv _ _ _ _ _ hbd2 hh
      exact ⟨ht2.trans hbt, hd2⟩
    repeat'
      first
        | exact fin _ _ _ _ rfl (hbd _ _) h
        | exact fin _ _ _ _ rfl (hbd _ _) h.symm
        | exact fin2 _ _ _ rfl (hbd _ _) h
        | exact fin2 _ _ _ rfl (hbd _ _) h.symm
        | (obtain ⟨_, _, h⟩ := h)
        | split at h
        | simp only [Option.some_bind, Option.bind_eq_bind, Option.bind_eq_some] at h

/-- One event of consequence synthesis never moves the clock and keeps the
document a dict. -/
theorem processEvent_inv (oracle : AiOracle) (uuidGen : Nat → String)
    (st st2 : EngineState) (ev : Value)
    (hdict : ∃ kvs, st.gs.doc = Value.dict kvs)
    (h : processEvent oracle uuidGen st ev = some st2) :
    st2.timeStep = st.timeStep ∧ ∃ kvs2, st2.gs.doc = Value.dict kvs2 := by
  have fin : ∀ (eid : Value) (parts : List Value),
      List.foldlM (processNation oracle uuidGen ev eid) st parts = some st2 →
      st2.timeStep = st.timeStep ∧ ∃ kvs2, st2.gs.doc = Value.dict kvs2 := by
    intro eid parts hf
    refine foldlM_option_preserve (fun s nid => processNation oracle uuidGen ev eid s nid)
      (fun s => s.timeStep = st.timeStep ∧ ∃ kvs2, s.gs.doc = Value.dict kvs2)
      ?_ parts st st2 hf ⟨rfl, hdict⟩
    intro s a s2 hps hs
    obtain ⟨ht2, hd2⟩ := processNation_inv _ _ _ _ _ _ _ hs.2 hps
    exact ⟨ht2.trans hs.1, hd2⟩
  unfold processEvent at h
  split at h
  · simp only [Option.bind_eq_bind, Option.bind_eq_some] at h
    repeat'
      first
        | (injection h with h2
           subst h2
           exact ⟨rfl, hdict⟩)
        | exact fin _ _ h
        | exact fin _ _ h.symm
        | (obtain ⟨_, _, h⟩ := h)
        | split at h
        | simp only [Option.some_bind, pure] at h
  · simp at h

/-- Consequence synthesis never moves the clock and keeps the document a
dict. -/
theorem applyRamifications_inv (oracle : AiOracle) (uuidGen : Nat → String)
    (st st2 : EngineState)
    (hdict : ∃ kvs, st.gs.doc = Value.dict kvs)
    (h : applyRamifications oracle uuidGen st = some st2) :
    st2.timeStep = st.timeStep ∧ ∃ kvs2, st2.gs.doc = Value.dict kvs2 := by
  unfold applyRamifications at h
  split at h
  · injection h with h2
    subst h2
    exact ⟨rfl, hdict⟩
  · refine foldlM_option_preserve (processEvent oracle uuidGen)
      (fun s => s.timeStep = st.timeStep ∧ ∃ kvs2, s.gs.doc = Value.dict kvs2)
      ?_ st.pendingEvents st st2 h ⟨rfl, hdict⟩
    intro s a s2 hps hs
    obtain ⟨ht2, hd2⟩ := processEvent_inv _ _ _ _ _ hs.2 hps
    exact ⟨ht2.trans hs.1, hd2⟩

set_option maxHeartbeats 2000000 in
/-- C2, corrected ordering: within one `main_loop` iteration over a dict
State Document, the engine step advances the clock by 30 days and writes the
new date into `current_date` first, and `execute_pending_ramifications` then
runs against exactly that post-advance date; in the phase list the
time advance strictly precedes mutation execution. -/
theorem time_advances_before_mutation_execution
    (oracle : AiOracle) (uuidGen : Nat → String) (st : EngineState) (input : String)
    (kvs : List (String × Value)) (r : EngineState × String)
    (hdoc : st.gs.doc = Value.dict kvs)
    (h : runSimulationStep oracle uuidGen st input = some r) :
    r.1.timeStep = st.timeStep.addDays 30
    ∧ (∃ kvs2, r.1.gs.doc = Value.dict kvs2 ∧
        dictLookup "current_date" kvs2 = some (.str (st.timeStep.addDays 30).fmtDate))
    ∧ timeEngineStep oracle uuidGen st input =
        some { r.1 with gs := executePendingRamifications r.1.gs ((st.timeStep.addDays 30).fmtDate ++ "T00:00:00") }
    ∧ timeEngineStepPhases.indexOf StepPhase.advanceSimTime <
        timeEngineStepPhases.indexOf StepPhase.executeMutations := by
  have h0 := h
  unfold runSimulationStep at h
  simp only [Option.bind_eq_bind, Option.bind_eq_some] at h
  obtain ⟨st1, h1, h⟩ := h
  obtain ⟨hg1, ht1⟩ := evaluateConditions_inv _ _ _ h1
  have main : ∀ (st2 : EngineState), st2.gs = st1.gs → st2.timeStep = st1.timeStep →
      ((updateJsonSchemas st2).bind fun st3 =>
        (summarizeChanges st3).bind fun summary =>
          (applyRamifications oracle uuidGen st3).bind fun st4 =>
            pure ({ advanceTime st4 30 with pendingEvents := [] }, summary)) = some r →
      r.1.timeStep = st.timeStep.addDays 30
      ∧ (∃ kvs2, r.1.gs.doc = Value.dict kvs2 ∧
          dictLookup "current_date" kvs2 = some (.str (st.timeStep.addDays 30).fmtDate))
      ∧ timeEngineStep oracle uuidGen st input =
          some { r.1 with gs := executePendingRamifications r.1.gs ((st.timeStep.addDays 30).fmtDate ++ "T00:00:00") }
      ∧ timeEngineStepPhases.indexOf StepPhase.advanceSimTime <
          timeEngineStepPhases.indexOf StepPhase.executeMutations := by
    intro st2 hg2 ht2 hh
    simp only [Option.bind_eq_some, pure] at hh
    obtain ⟨st3, h3, summary, hsum, st4, h4, hh⟩ := hh
    injection hh with h2eq
    obtain ⟨ht3, hd3, hram3⟩ := updateJsonSchemas_inv _ _ h3
    have hdoc2 : st2.gs.doc = Value.dict kvs := by rw [hg2, hg1, hdoc]
    obtain ⟨kvs3, hkvs3⟩ := hd3 kvs hdoc2
    obtain ⟨ht4, kvs4, hkvs4⟩ := applyRamifications_inv _ _ _ _ ⟨kvs3, hkvs3⟩ h4
    have htime4 : st4.timeStep = st.timeStep := by rw [ht4, ht3, ht2, ht1]
    have hts : r.1.timeStep = st.timeStep.addDays 30 := by
      rw [← h2eq]
      simp only [advanceTime]
      rw [htime4]
    have hrdoc : r.1.gs.doc = Value.dict
        (dictSet "current_date" (Value.str (st.timeStep.addDays 30).fmtDate) kvs4) := by
      rw [← h2eq]
      simp only [advanceTime]
      rw [htime4, hkvs4]
      simp only [docSetKey]
    refine ⟨hts, ⟨_, hrdoc, dictLookup_dictSet_self _ _ _⟩, ?_, by decide⟩
    unfold timeEngineStep
    rw [h0]
    simp only [Option.some_bind, Option.bind_eq_bind]
    rw [hrdoc]
    simp only [dictLookup_dictSet_self, Option.getD_some, pyRepr, pure]
  split at h
  · rw [Option.bind_eq_some] at h
    obtain ⟨st2, h2, h⟩ := h
    obtain ⟨hg2, ht2⟩ := processUserInput_inv _ _ _ h2
    exact main st2 hg2 ht2 h
  · simp only [pure, Option.some_bind] at h
    exact main st1 rfl rfl h


/-- C2 counterexample: in one `main_loop` iteration the Mutation Executor
phase comes after — not before — the time-advance phase, and this is
observable: at `cexC2` the single pending ramification is due only at the
post-advance date `1975-01-31` (it is not due at the step start,
`1975-01-31 <= 1975-01-01` being false), yet one `timeEngineStep` leaves it
`executed`, because the executor is handed the advanced `current_date`. -/
theorem mutation_after_time_advance_counterexample :
    (¬ timeEngineStepPhases.indexOf StepPhase.executeMutations <
        timeEngineStepPhases.indexOf StepPhase.advanceSimTime)
    ∧ PyDateTime.ble ⟨1975, 1, 31, 0, 0, 0⟩ ⟨1975, 1, 1, 0, 0, 0⟩ = false
    ∧ ((timeEngineStep noOracle uuidSeq cexC2 "").map
        (fun st2 => st2.gs.ramifications.map Ramification.status)) = some [some "executed"] :=
  ⟨by decide, rfl, rfl⟩

/-- Witness for C2 at the fixture `cexC2` (no triggers, empty pending
list, a failing oracle). -/
theorem time_advances_before_mutation_execution_witness :
    cexC2.gs.doc = Value.dict [("current_date", Value.str "1975-01-01")]
    ∧ runSimulationStep noOracle uuidSeq cexC2 "" = some rC2
    ∧ (rC2.1.timeStep = cexC2.timeStep.addDays 30
      ∧ (∃ kvs2, rC2.1.gs.doc = Value.dict kvs2 ∧
          dictLookup "current_date" kvs2 = some (.str (cexC2.timeStep.addDays 30).fmtDate))
      ∧ timeEngineStep noOracle uuidSeq cexC2 "" =
          some { rC2.1 with gs := executePendingRamifications rC2.1.gs ((cexC2.timeStep.addDays 30).fmtDate ++ "T00:00:00") }
      ∧ timeEngineStepPhases.indexOf StepPhase.advanceSimTime <
          timeEngineStepPhases.indexOf StepPhase.executeMutations) :=
  ⟨rfl, rfl, time_advances_before_mutation_execution noOracle uuidSeq cexC2 ""
    [("current_date", Value.str "1975-01-01")] rC2 rfl rfl⟩
